import Mathlib

/-!
Verification development for the DevLog browser blog client (script.js).

The JavaScript source is shallowly embedded: pure helpers become Lean
functions over `List Char` / `Nat`; the stateful pieces (retry loop, cookie
jar, posts table, draft auto-save) are modelled by explicit state passing.
Times and backoff delays are in milliseconds; delays carry the random jitter
as an explicit `ℚ`-valued parameter `jitter : Nat → ℚ` giving the value of
`Math.random() * 1000` observed before each retry.  Browser/stdlib
collaborators that the script calls (cookie store, localStorage, UTF-8
percent-encoding, Markdown rendering) are modelled by their documented
semantics; Markdown rendering stays an abstract function parameter.
-/

/-- Model of JavaScript `String.prototype.toLowerCase` restricted to ASCII
letters, which is all the retry patterns of `isRetryableError` need. -/
def lowerChar (c : Char) : Char :=
  if 'A' ≤ c ∧ c ≤ 'Z' then Char.ofNat (c.toNat + 32) else c

/-- Lower-case every character of a string (model of `toLowerCase`). -/
def lowerStr (s : String) : String :=
  ⟨s.data.map lowerChar⟩

/-- Does `p` occur as the initial segment of `l`?  Helper for the model of
JavaScript `String.prototype.includes`. -/
def leadsWith : List Char → List Char → Bool
  | [], _ => true
  | _ :: _, [] => false
  | p :: ps, c :: cs => p == c && leadsWith ps cs

/-- Does `pat` occur as a contiguous run somewhere in the list?  Helper for
the model of JavaScript `String.prototype.includes`. -/
def occursIn (pat : List Char) : List Char → Bool
  | [] => pat.isEmpty
  | c :: cs => leadsWith pat (c :: cs) || occursIn pat cs

/-- Model of JavaScript `s.includes(pat)` (case-sensitive substring test). -/
def strIncludes (s pat : String) : Bool :=
  occursIn pat.data s.data

/-- Model of JavaScript `String.prototype.trim`: strip leading and trailing
whitespace. -/
def jsTrim (s : String) : String :=
  ⟨((s.data.dropWhile Char.isWhitespace).reverse.dropWhile Char.isWhitespace).reverse⟩

/-- `CONFIG.MAX_RETRIES` from script.js. -/
def MAX_RETRIES : Nat := 3

/-- `CONFIG.RETRY_DELAY_BASE` from script.js, in milliseconds. -/
def RETRY_DELAY_BASE : ℚ := 1000

/-- `CONFIG.AUTO_SAVE_DELAY` from script.js, in milliseconds. -/
def AUTO_SAVE_DELAY : Nat := 2000

/-- A JavaScript error value as the script inspects it: an optional numeric
`status` field and an optional `message` string.  A missing field is
`none` (JavaScript `undefined`). -/
structure JsError where
  status : Option Nat
  message : Option String
deriving DecidableEq

/-- The retryable HTTP status codes of `ErrorHandler.isRetryableError`. -/
def retryableStatusCodes : List Nat := [408, 429, 500, 502, 503, 504]

/-- The transient-failure message patterns of `ErrorHandler.isRetryableError`. -/
def retryableMessages : List String :=
  ["network error", "timeout", "connection", "rate limit", "server error"]

/-- The `error.status && retryableStatusCodes.includes(error.status)` test:
`status` must be present and truthy (non-zero) and in the retryable list. -/
def statusRetryable (e : JsError) : Bool :=
  match e.status with
  | some s => s != 0 && retryableStatusCodes.contains s
  | none => false

/-- Embedding of `ErrorHandler.isRetryableError` (script.js lines 176-183):
retryable when offline, or the status code is retryable, or the lower-cased
message (empty when absent) contains a transient-failure pattern. -/
def isRetryableError (isOnline : Bool) (e : JsError) : Bool :=
  if isOnline = false then true
  else if statusRetryable e = true then true
  else retryableMessages.any (fun msg => strIncludes (lowerStr (e.message.getD "")) msg)

/-- The `error.status >= 500` test of `getUserFriendlyErrorMessage`; in
JavaScript a missing status compares as `NaN >= 500`, i.e. false. -/
def statusAtLeast500 (e : JsError) : Bool :=
  match e.status with
  | some s => if 500 ≤ s then true else false
  | none => false

/-- The `error.status === 401 || error.status === 403` test of
`getUserFriendlyErrorMessage`. -/
def statusIsAuthError (e : JsError) : Bool :=
  e.status == some 401 || e.status == some 403

/-- Embedding of `ErrorHandler.getUserFriendlyErrorMessage` (script.js lines
222-229).  The rules are tried in source order.  The result is `none` exactly
when the error carries no `message` and the client is online: there the
JavaScript `error.message.includes('timeout')` would itself throw. -/
def getUserFriendlyErrorMessage (isOnline : Bool) (e : JsError) (operationName : String) :
    Option String :=
  if isOnline = false then
    some "You appear to be offline. Please check your internet connection."
  else
    match e.message with
    | none => none
    | some m =>
      if strIncludes m "timeout" = true then
        some (operationName ++ " is taking too long. Please try again.")
      else if strIncludes m "rate limit" = true then
        some "Too many requests. Please wait a moment and try again."
      else if statusAtLeast500 e = true then
        some "Server error. Please try again later."
      else if statusIsAuthError e = true then
        some "Authentication error. Please log in again."
      else
        some (operationName ++ " failed. Please try again.")

deriving instance DecidableEq for Except

/-- Observable outcome of one `retryWithBackoff` run: how many times the
wrapped operation was invoked, the backoff delays slept between attempts (in
order), and the final outcome.  `result = none` can only arise from
`maxRetries = 0` (the JavaScript loop would then throw `undefined`). -/
structure RetryTrace (ε α : Type) where
  attempts : Nat
  delays : List ℚ
  result : Option (Except ε α)
deriving DecidableEq

/-- The loop body of `ErrorHandler.retryWithBackoff` (script.js lines
159-174), starting at attempt number `attempt` with `r` attempts still
allowed (so `r = maxRetries - attempt + 1`).  The operation threads a state
`σ` recording its external effects; `isRetryable` classifies errors.  On an
error the loop first breaks if this was the last allowed attempt
(`attempt === maxRetries`), then breaks if the error is not retryable;
otherwise it sleeps `RETRY_DELAY_BASE * 2 ^ (attempt - 1) + jitter attempt`
milliseconds and retries. -/
def retryFromS {σ ε α : Type} (op : Nat → σ → σ × Except ε α) (isRetryable : ε → Bool)
    (jitter : Nat → ℚ) : Nat → Nat → σ → σ × RetryTrace ε α
  | _, 0, s => (s, ⟨0, [], none⟩)
  | attempt, r + 1, s =>
    match op attempt s with
    | (s1, Except.ok v) => (s1, ⟨1, [], some (Except.ok v)⟩)
    | (s1, Except.error e) =>
      if r = 0 then (s1, ⟨1, [], some (Except.error e)⟩)
      else if isRetryable e = false then (s1, ⟨1, [], some (Except.error e)⟩)
      else
        let t := retryFromS op isRetryable jitter (attempt + 1) r s1
        (t.1, ⟨t.2.attempts + 1,
               (RETRY_DELAY_BASE * 2 ^ (attempt - 1) + jitter attempt) :: t.2.delays,
               t.2.result⟩)

/-- Embedding of `ErrorHandler.retryWithBackoff`: run the loop from attempt 1
with `maxRetries` attempts allowed, classifying errors with
`isRetryableError` at the current online state (the source calls
`this.isRetryableError`). -/
def retryWithBackoff {σ α : Type} (op : Nat → σ → σ × Except JsError α) (isOnline : Bool)
    (jitter : Nat → ℚ) (maxRetries : Nat) (s : σ) : σ × RetryTrace JsError α :=
  retryFromS op (isRetryableError isOnline) jitter 1 maxRetries s

/-- Observable outcome of a `safeOperation` call that returns normally: the
returned value (`none` models the JavaScript `null` sentinel), whether
`logError` ran, the `alert` shown to the user (`some msg` when an alert was
raised), and how many times the wrapped operation was invoked. -/
structure SafeResult (α : Type) where
  value : Option α
  logged : Bool
  alertMsg : Option String
  attempts : Nat
deriving DecidableEq

/-- The TypeError `error.message.includes(...)` raises inside the catch
block of `safeOperation` when the caught error carries no `message` field
(JavaScript `undefined.includes`). -/
def messageTypeError : JsError :=
  ⟨none, some "Cannot read properties of undefined (reading 'includes')"⟩

/-- Embedding of `ErrorHandler.safeOperation` (script.js lines 198-220): run
the operation through `retryWithBackoff` with `CONFIG.MAX_RETRIES`; on final
failure log the error, then, when `showUserError` is set, format and alert a
user-friendly message and return the `null` sentinel.  The function can
itself throw (`Except.error`): when the client is online and the final error
has no `message`, `getUserFriendlyErrorMessage` evaluates
`error.message.includes('timeout')` on `undefined`, so the catch block
raises a TypeError (after the logging) and `safeOperation` propagates it
instead of returning.  The final `none` branch (`maxRetries = 0`, the loop
body never ran) is unreachable because `MAX_RETRIES = 3 ≥ 1`; the JavaScript
would throw `undefined` and then crash reading `.message` of it in
`logError`'s argument. -/
def safeOperation {σ α : Type} (op : Nat → σ → σ × Except JsError α) (isOnline : Bool)
    (jitter : Nat → ℚ) (operationName : String) (showUserError : Bool) (s : σ) :
    σ × Except JsError (SafeResult α) :=
  let r := retryWithBackoff op isOnline jitter MAX_RETRIES s
  match r.2.result with
  | some (Except.ok v) => (r.1, Except.ok ⟨some v, false, none, r.2.attempts⟩)
  | some (Except.error e) =>
    if showUserError = true then
      match getUserFriendlyErrorMessage isOnline e operationName with
      | some msg => (r.1, Except.ok ⟨none, true, some msg, r.2.attempts⟩)
      | none => (r.1, Except.error messageTypeError)
    else (r.1, Except.ok ⟨none, true, none, r.2.attempts⟩)
  | none =>
    (r.1, Except.error
      ⟨none, some "Cannot read properties of undefined (reading 'message')"⟩)

/-- The value a `safeOperation` call hands its caller: the payload's value
on a normal return, nothing when the call itself threw (mirrors how callers
observe `result !== null` only on normal completion). -/
def runValue {α : Type} (r : Except JsError (SafeResult α)) : Option α :=
  match r with
  | Except.ok res => res.value
  | Except.error _ => none

/-- Projection of the attempt count out of a completed `safeOperation` run
(zero when the wrapper itself threw before recording one). -/
def runAttempts {α : Type} (r : Except JsError (SafeResult α)) : Nat :=
  match r with
  | Except.ok res => res.attempts
  | Except.error _ => 0

/-- Embedding of `Utils.validateFields` (script.js lines 251-259): walk the
field list in order; on the first empty or whitespace-only value return
`false` together with the alert text shown; otherwise return `true`. -/
def validateFields : List (String × String) → Bool × Option String
  | [] => (true, none)
  | (fieldName, value) :: rest =>
    if jsTrim value = "" then (false, some ("⚠️ " ++ fieldName ++ " cannot be empty!"))
    else validateFields rest

/-- External effects of `PostManager.submitPost`: how many remote insert
calls were issued and the alerts shown, in order. -/
structure SubmitState where
  remoteInserts : Nat
  alerts : List String
deriving DecidableEq

/-- One invocation of the async operation inside `PostManager.submitPost`
(part_000 lines 572-623): validate the two fields (throwing
`Invalid post data provided` after the validation alert), then issue the
remote insert; `insertOk` says whether the backend accepted it (a refusal is
modelled as a 500 error).  DOM bookkeeping (clearing inputs, closing the
modal, notification, `addPostToUI`) has no bearing on the claims and is not
recorded in the state. -/
def submitAttempt (title content : String) (insertOk : Bool) (st : SubmitState) :
    SubmitState × Except JsError (String × String) :=
  let v := validateFields [("Title", title), ("Content", content)]
  if v.1 = false then
    ({ st with alerts := st.alerts ++ [v.2.getD ""] },
     Except.error ⟨none, some "Invalid post data provided"⟩)
  else
    let st1 := { st with remoteInserts := st.remoteInserts + 1 }
    if insertOk = false then
      (st1, Except.error ⟨some 500, some "server error"⟩)
    else
      ({ st1 with alerts := st1.alerts ++ ["✅ Post added successfully!"] },
       Except.ok (jsTrim title, jsTrim content))

/-- Embedding of `PostManager.submitPost`: the attempt wrapped in
`safeOperation` under the name `Submit Post`.  `insertOk` gives the backend
outcome per attempt number. -/
def submitPost (title content : String) (isOnline : Bool) (jitter : Nat → ℚ)
    (insertOk : Nat → Bool) (st : SubmitState) :
    SubmitState × Except JsError (SafeResult (String × String)) :=
  safeOperation (fun attempt s => submitAttempt title content (insertOk attempt) s)
    isOnline jitter "Submit Post" true st

/-- Embedding of the monkey-patched `PostManager.submitPost` installed by
`App.setupAutoSave` (part_000 lines 1205-1214): run the original submit; on
a non-null result remove both draft keys from localStorage.  If the original
submit itself threw, the `await` rethrows before the draft check, so the
drafts are left alone. -/
def wrappedSubmitPost (title content : String) (isOnline : Bool) (jitter : Nat → ℚ)
    (insertOk : Nat → Bool) (st : SubmitState) (draftContent draftTitle : Option String) :
    (SubmitState × Except JsError (SafeResult (String × String))) ×
      Option String × Option String :=
  let r := submitPost title content isOnline jitter insertOk st
  match r.2 with
  | Except.ok res =>
    if res.value.isSome = true then (r, none, none) else (r, draftContent, draftTitle)
  | Except.error _ => (r, draftContent, draftTitle)

/-- The browser cookie jar, as name-value pairs (newest first). -/
abbrev CookieJar := List (String × String)

/-- Embedding of `CookieManager.get`: the value of the named cookie, `null`
when absent. -/
def cookieGet (jar : CookieJar) (name : String) : Option String :=
  (jar.find? (fun c => c.1 == name)).map (fun c => c.2)

/-- Embedding of `CookieManager.set` through the browser jar semantics: the
new pair replaces any previous cookie of the same name. -/
def cookieSet (jar : CookieJar) (name value : String) : CookieJar :=
  (name, value) :: jar.filter (fun c => c.1 != name)

/-- Embedding of `CookieManager.hasLiked` (script.js lines 282-284): the
`liked_<id>` cookie holds the string `true`. -/
def hasLiked (jar : CookieJar) (postId : String) : Bool :=
  cookieGet jar ("liked_" ++ postId) == some "true"

/-- The backend `posts` table restricted to what `likePost` touches: post id
to like count. -/
abbrev PostsTable := List (String × Nat)

/-- The `select('likes').eq('id', postId).single()` read. -/
def dbGet (db : PostsTable) (postId : String) : Option Nat :=
  (db.find? (fun p => p.1 == postId)).map (fun p => p.2)

/-- The `update({likes}).eq('id', postId)` write: replaces the count on the
matching row. -/
def dbSet (db : PostsTable) (postId : String) (likes : Nat) : PostsTable :=
  db.map (fun p => if p.1 == postId then (postId, likes) else p)

/-- State threaded through `PostManager.likePost`: the cookie jar, the
backend table, and counters of remote reads/writes issued. -/
structure LikeState where
  cookies : CookieJar
  db : PostsTable
  remoteReads : Nat
  remoteWrites : Nat
deriving DecidableEq

/-- One invocation of the async operation inside `PostManager.likePost`
(script.js lines 318-346): return early when the liked cookie is set;
otherwise read the current count (`selectOk` injects a network failure, a
missing row throws `Post not found`), write back count + 1 (`updateOk`
injects a network failure), and only after a successful write set the
`liked_<id>` cookie. -/
def likeAttempt (postId : String) (selectOk updateOk : Bool) (st : LikeState) :
    LikeState × Except JsError Bool :=
  if hasLiked st.cookies postId = true then (st, Except.ok false)
  else
    let st1 := { st with remoteReads := st.remoteReads + 1 }
    if selectOk = false then (st1, Except.error ⟨none, some "network error"⟩)
    else
      match dbGet st1.db postId with
      | none => (st1, Except.error ⟨none, some "Post not found"⟩)
      | some likes =>
        let newLikes := likes + 1
        let st2 := { st1 with remoteWrites := st1.remoteWrites + 1 }
        if updateOk = false then (st2, Except.error ⟨none, some "network error"⟩)
        else
          ({ st2 with db := dbSet st2.db postId newLikes,
                      cookies := cookieSet st2.cookies ("liked_" ++ postId) "true" },
           Except.ok true)

/-- Embedding of `PostManager.likePost` up to its `safeOperation` result:
the attempt wrapped under the name `Like Post`, with per-attempt backend
outcomes. -/
def likePostRun (postId : String) (isOnline : Bool) (jitter : Nat → ℚ)
    (selectOk updateOk : Nat → Bool) (st : LikeState) :
    LikeState × Except JsError (SafeResult Bool) :=
  safeOperation (fun attempt s => likeAttempt postId (selectOk attempt) (updateOk attempt) s)
    isOnline jitter "Like Post" true st

/-- Embedding of `PostManager.likePost`: returns `result !== null` on a
normal completion and rethrows if `safeOperation` threw. -/
def likePost (postId : String) (isOnline : Bool) (jitter : Nat → ℚ)
    (selectOk updateOk : Nat → Bool) (st : LikeState) :
    LikeState × Except JsError Bool :=
  let r := likePostRun postId isOnline jitter selectOk updateOk st
  (r.1, r.2.map (fun res => res.value.isSome))

/-- Environment of one `likePost` call in a call sequence: online state,
observed jitter, and backend outcomes per attempt. -/
structure LikeCfg where
  isOnline : Bool
  jitter : Nat → ℚ
  selectOk : Nat → Bool
  updateOk : Nat → Bool

/-- A sequence of `likePost` calls for the same post on the same browser. -/
def likePostSeq (postId : String) (cfgs : List LikeCfg) (st : LikeState) : LikeState :=
  cfgs.foldl (fun s c => (likePost postId c.isOnline c.jitter c.selectOk c.updateOk s).1) st

/-- A post record as fetched by `App.loadPosts` (`created_at` in ms). -/
structure Post where
  id : String
  title : String
  content : String
  likes : Nat
  created_at : Nat
deriving DecidableEq

/-- Per-character HTML escaping as performed by the browser when
`UIManager.escapeHtml` reads back `innerHTML` from a text node: the markup
characters `&`, `<`, `>` become entities, everything else is itself. -/
def escapeChar (c : Char) : List Char :=
  if c = '&' then ['&', 'a', 'm', 'p', ';']
  else if c = '<' then ['&', 'l', 't', ';']
  else if c = '>' then ['&', 'g', 't', ';']
  else [c]

/-- Embedding of `UIManager.escapeHtml` (script.js lines 412-416). -/
def escapeHtml (s : String) : String :=
  ⟨s.data.flatMap escapeChar⟩

/-- HTML entity decoding for the three entities `escapeHtml` produces: the
text content the browser derives from escaped markup. -/
def unescapeChars : List Char → List Char
  | [] => []
  | c :: rest =>
    if c = '&' then
      if rest.take 4 = ['a', 'm', 'p', ';'] then '&' :: unescapeChars (rest.drop 4)
      else if rest.take 3 = ['l', 't', ';'] then '<' :: unescapeChars (rest.drop 3)
      else if rest.take 3 = ['g', 't', ';'] then '>' :: unescapeChars (rest.drop 3)
      else c :: unescapeChars rest
    else c :: unescapeChars rest
termination_by l => l.length
decreasing_by all_goals (simp only [List.length_drop, List.length_cons] ; omega)

/-- Text content of an HTML fragment that contains no tags: entity-decode. -/
def unescapeHtml (s : String) : String :=
  ⟨unescapeChars s.data⟩

/-- The characters `encodeURIComponent` leaves literal (ECMA-262):
alphanumerics and `-_.!~*'()`. -/
def unreservedURIChar (c : Char) : Bool :=
  c.isAlphanum || ['-', '_', '.', '!', '~', '*', Char.ofNat 39, '(', ')'].contains c

/-- Upper-case hex digit of a value below 16. -/
def hexDigitChar (n : Nat) : Char :=
  if n < 10 then Char.ofNat (48 + n) else Char.ofNat (55 + n)

/-- Value of a hex digit character, `none` for non-hex characters. -/
def hexVal (c : Char) : Option Nat :=
  if '0' ≤ c ∧ c ≤ '9' then some (c.toNat - 48)
  else if 'A' ≤ c ∧ c ≤ 'F' then some (c.toNat - 55)
  else if 'a' ≤ c ∧ c ≤ 'f' then some (c.toNat - 87)
  else none

/-- UTF-8 bytes of one code point (1 to 4 bytes). -/
def utf8Bytes (c : Char) : List Nat :=
  let n := c.toNat
  if n < 0x80 then [n]
  else if n < 0x800 then [0xC0 + n / 0x40, 0x80 + n % 0x40]
  else if n < 0x10000 then [0xE0 + n / 0x1000, 0x80 + n / 0x40 % 0x40, 0x80 + n % 0x40]
  else [0xF0 + n / 0x40000, 0x80 + n / 0x1000 % 0x40, 0x80 + n / 0x40 % 0x40, 0x80 + n % 0x40]

/-- Percent-encoding of one byte, upper-case hex as ECMA-262 specifies. -/
def pctEncodeByte (b : Nat) : List Char :=
  ['%', hexDigitChar (b / 16), hexDigitChar (b % 16)]

/-- `encodeURIComponent` on one character: unreserved characters stay
literal, everything else is the percent-encoding of its UTF-8 bytes. -/
def encodeURIChar (c : Char) : List Char :=
  if unreservedURIChar c = true then [c] else (utf8Bytes c).flatMap pctEncodeByte

/-- Model of the browser builtin `encodeURIComponent` (ECMA-262 semantics),
used for the `data-md` attribute in `UIManager.addPostToUI`. -/
def encodeURIComponent (s : String) : String :=
  ⟨s.data.flatMap encodeURIChar⟩

/-- First pass of `decodeURIComponent`: turn `%XX` into a byte
(`Sum.inl`) and keep other characters literal (`Sum.inr`); `none` on a
malformed escape (URIError). -/
def pctTokens : List Char → Option (List (Sum Nat Char))
  | [] => some []
  | c :: cs =>
    if c = '%' then
      match cs with
      | h1 :: h2 :: rest =>
        match hexVal h1, hexVal h2 with
        | some a, some b => (pctTokens rest).map (fun ts => Sum.inl (16 * a + b) :: ts)
        | _, _ => none
      | _ => none
    else (pctTokens cs).map (fun ts => Sum.inr c :: ts)
termination_by l => l.length
decreasing_by all_goals (simp only [List.length_drop, List.length_cons] ; omega)

/-- Second pass of `decodeURIComponent`: decode maximal byte runs as UTF-8
(rejecting truncated, overlong, surrogate and out-of-range sequences), keep
literal characters as themselves.  The state is `none` between characters and
`some (need, acc, minCp)` inside a byte sequence: `need` continuation bytes
still expected, accumulator `acc`, and `minCp` the least code point the
sequence length admits (overlong rejection). -/
def utf8Run : Option (Nat × Nat × Nat) → List (Sum Nat Char) → Option (List Char)
  | some _, [] => none
  | none, [] => some []
  | none, Sum.inr c :: ts => (utf8Run none ts).map (fun l => c :: l)
  | some _, Sum.inr _ :: _ => none
  | none, Sum.inl b :: ts =>
    if b < 0x80 then (utf8Run none ts).map (fun l => Char.ofNat b :: l)
    else if b < 0xC2 then none
    else if b < 0xE0 then utf8Run (some (1, b - 0xC0, 0x80)) ts
    else if b < 0xF0 then utf8Run (some (2, b - 0xE0, 0x800)) ts
    else if b < 0xF5 then utf8Run (some (3, b - 0xF0, 0x10000)) ts
    else none
  | some (need, acc, minCp), Sum.inl b :: ts =>
    if 0x80 ≤ b ∧ b < 0xC0 then
      if need = 1 then
        if minCp ≤ acc * 0x40 + (b - 0x80) ∧
            (acc * 0x40 + (b - 0x80) < 0xD800 ∨ 0xDFFF < acc * 0x40 + (b - 0x80)) ∧
            acc * 0x40 + (b - 0x80) < 0x110000 then
          (utf8Run none ts).map (fun l => Char.ofNat (acc * 0x40 + (b - 0x80)) :: l)
        else none
      else utf8Run (some (need - 1, acc * 0x40 + (b - 0x80), minCp)) ts
    else none

/-- Decode a full token list: start between characters. -/
def utf8DecodeTokens (ts : List (Sum Nat Char)) : Option (List Char) :=
  utf8Run none ts

/-- Model of the browser builtin `decodeURIComponent` (ECMA-262 semantics),
used by `PostManager.editPost` to recover the Markdown source from the
`data-md` attribute. -/
def decodeURIComponent (s : String) : Option String :=
  match pctTokens s.data with
  | none => none
  | some ts =>
    match utf8DecodeTokens ts with
    | none => none
    | some cs => some ⟨cs⟩

/-- The like-button markup built by `UIManager.createLikeButton`
(script.js lines 396-410). -/
def createLikeButton (id : String) (liked : Bool) (likeCount : Nat) : String :=
  "\n      <button class=\"likeBtn " ++ (if liked = true then "liked" else "") ++
  "\" onclick=\"PostManager.likePost('" ++ id ++ "')\" " ++
  (if liked = true then "disabled" else "") ++
  ">\n        <svg class=\"heart-icon\" viewBox=\"0 0 24 24\">\n          <path d=\"M12 21.35l-1.45-1.32C5.4 15.36 2 12.28 2 8.5\n                   2 5.42 4.42 3 7.5 3c1.74 0 3.41 0.81 4.5 2.09\n                   C13.09 3.81 14.76 3 16.5 3\n                   19.58 3 22 5.42 22 8.5\n                   c0 3.78-3.4 6.86-8.55 11.54L12 21.35z\"\n                  />\n        </svg>\n        <span class=\"likecounter " ++
  (if liked = true then "liked" else "") ++ "\" id=\"like-count-" ++ id ++ "\">" ++
  toString likeCount ++ "</span>\n      </button>\n    "

/-- The `innerHTML` string `UIManager.addPostToUI` assigns to a new post
node (script.js lines 387-392): escaped title, paragraph carrying the
URL-encoded Markdown source in `data-md` and the rendered Markdown as body,
escaped date, then the like button.  `markedParse` abstracts the external
`marked.parse(content, { breaks: true })` call.  (part_000 appends
edit/delete buttons after the like button when logged in; the fields the
claims quote are identical.) -/
def addPostToUI_innerHTML (markedParse : String → String) (title content date : String)
    (id : String) (liked : Bool) (likes : Nat) : String :=
  "\n      <h2>" ++ escapeHtml title ++ "</h2>\n      <p data-md=\"" ++
  encodeURIComponent content ++ "\">" ++ markedParse content ++
  "</p>\n      <span class=\"date\">" ++ escapeHtml date ++ "</span>\n      " ++
  createLikeButton id liked likes ++ "\n    "

/-- The `data.forEach(post => ... addPostToUI(...))` loop of `App.loadPosts`
(script.js lines 469-494): render each fetched post and prepend it to the
container, threading the container through the loop. -/
def renderLoadedPosts {α : Type} (render : Post → α) (posts : List Post)
    (container : List α) : List α :=
  posts.foldl (fun acc p => render p :: acc) container

/-- State of the debounced auto-save machinery of
`PerformanceUtils.createAutoSave` / `App.setupAutoSave`: the pending
`setTimeout` (fire time in ms and captured field value), the saves executed
so far (`localStorage.setItem` calls, in order), and the current value under
the draft key (`none` when the key is absent). -/
structure AutoSaveState where
  pendingTimer : Option (Nat × String)
  saves : List (Nat × String)
  draftStore : Option String
deriving DecidableEq

/-- Fire the pending debounce timer: execute the save, storing the captured
value under the draft key. -/
def fireTimer (s : AutoSaveState) : AutoSaveState :=
  match s.pendingTimer with
  | some ft => ⟨none, s.saves ++ [ft], some ft.2⟩
  | none => s

/-- Let time advance to `now`: the pending timer fires if it was due. -/
def fireIfDue (s : AutoSaveState) (now : Nat) : AutoSaveState :=
  match s.pendingTimer with
  | some ft => if ft.1 ≤ now then fireTimer s else s
  | none => s

/-- Embedding of the `handleInput` closure of
`PerformanceUtils.createAutoSave` (script.js lines 84-96): only when the
field value has non-empty trim does it call the debounced save, which clears
any pending timer and schedules the save `AUTO_SAVE_DELAY` ms from now. -/
def handleInput (s : AutoSaveState) (now : Nat) (value : String) : AutoSaveState :=
  if jsTrim value = "" then s
  else { s with pendingTimer := some (now + AUTO_SAVE_DELAY, value) }

/-- One input event at time `e.1` with field value `e.2`: time advances to
the event, then the input handler runs. -/
def stepEvent (s : AutoSaveState) (e : Nat × String) : AutoSaveState :=
  handleInput (fireIfDue s e.1) e.1 e.2

/-- Run a timeline of input events through the auto-save machinery. -/
def runAutoSave (events : List (Nat × String)) (s : AutoSaveState) : AutoSaveState :=
  events.foldl stepEvent s

/-- Quiescence of at least the debounce interval: any pending timer fires. -/
def settleAutoSave (s : AutoSaveState) : AutoSaveState :=
  fireTimer s

/-- Embedding of the focus handler of `App.setupAutoSave` (part_000 lines
1196-1202): restore the stored draft into the field when a draft exists
(non-null, non-empty — JavaScript truthiness) and the field is empty or
whitespace-only. -/
def focusRestore (store : Option String) (fieldValue : String) : String :=
  match store with
  | some draft => if draft != "" && jsTrim fieldValue == "" then draft else fieldValue
  | none => fieldValue

/-- Strictly increasing event times with consecutive gaps below the debounce
interval: an uninterrupted typing burst. -/
def burstGaps : List (Nat × String) → Bool
  | e1 :: e2 :: rest =>
    (decide (e1.1 < e2.1) && decide (e2.1 < e1.1 + AUTO_SAVE_DELAY)) && burstGaps (e2 :: rest)
  | _ => true

/-- Every event in the timeline carries a value with non-empty trim. -/
def eventsNonempty (events : List (Nat × String)) : Bool :=
  events.all (fun e => jsTrim e.2 != "")

/-- Invariant tying the liked cookie to the backend count: either this
browser has not liked the post and the count is the initial one, or it has
and the count was incremented exactly once. -/
def likeInv (postId : String) (init : Nat) (st : LikeState) : Prop :=
  (hasLiked st.cookies postId = false ∧ dbGet st.db postId = some init) ∨
  (hasLiked st.cookies postId = true ∧ dbGet st.db postId = some (init + 1))

/-- C5 is stated over the validation outcome, so name the validation alert
text once. -/
def validationAlert (title content : String) : String :=
  (validateFields [("Title", title), ("Content", content)]).2.getD ""

/-- The tokens `pctTokens` recovers from the encoding of one character. -/
def tokOf (c : Char) : List (Sum Nat Char) :=
  if unreservedURIChar c = true then [Sum.inr c] else (utf8Bytes c).map Sum.inl

/-- Unfolding: a successful attempt stops the loop at one invocation. -/
theorem retryFromS_succ_ok {σ ε α : Type} {op : Nat → σ → σ × Except ε α} {rb : ε → Bool}
    {j : Nat → ℚ} {a r : Nat} {s s1 : σ} {v : α} (hop : op a s = (s1, Except.ok v)) :
    retryFromS op rb j a (r + 1) s = (s1, ⟨1, [], some (Except.ok v)⟩) := by
  simp [retryFromS, hop]

/-- Unfolding: a failed attempt stops the loop when it was the last allowed
attempt or the error is not retryable. -/
theorem retryFromS_succ_stop {σ ε α : Type} {op : Nat → σ → σ × Except ε α} {rb : ε → Bool}
    {j : Nat → ℚ} {a r : Nat} {s s1 : σ} {e : ε} (hop : op a s = (s1, Except.error e))
    (hstop : r = 0 ∨ rb e = false) :
    retryFromS op rb j a (r + 1) s = (s1, ⟨1, [], some (Except.error e)⟩) := by
  rcases hstop with rfl | hrb
  · simp [retryFromS, hop]
  · rcases r with _ | r
    · simp [retryFromS, hop]
    · simp [retryFromS, hop, hrb]

/-- Unfolding: a failed retryable attempt with attempts remaining sleeps the
backoff delay and continues at the next attempt number. -/
theorem retryFromS_succ_retry {σ ε α : Type} {op : Nat → σ → σ × Except ε α} {rb : ε → Bool}
    {j : Nat → ℚ} {a r : Nat} {s s1 : σ} {e : ε} (hop : op a s = (s1, Except.error e))
    (hr : r ≠ 0) (hrb : rb e = true) :
    retryFromS op rb j a (r + 1) s =
      ((retryFromS op rb j (a + 1) r s1).1,
       ⟨(retryFromS op rb j (a + 1) r s1).2.attempts + 1,
        (RETRY_DELAY_BASE * 2 ^ (a - 1) + j a) :: (retryFromS op rb j (a + 1) r s1).2.delays,
        (retryFromS op rb j (a + 1) r s1).2.result⟩) := by
  rcases r with _ | r
  · exact absurd rfl hr
  · simp [retryFromS, hop, hrb]

/-- Trace of the retry loop when every invocation fails with a retryable
error: starting at attempt `a` with `r + 1` attempts allowed, the loop makes
exactly `r + 1` invocations, ends with the error of the last attempt, and
sleeps the exponential-backoff delay of each non-final attempt. -/
theorem retryFromS_all_error {σ ε α : Type} (op : Nat → σ → σ × Except ε α) (rb : ε → Bool)
    (j : Nat → ℚ) (e : Nat → ε)
    (hfail : ∀ a s, (op a s).2 = Except.error (e a))
    (hret : ∀ a, rb (e a) = true) :
    ∀ r a s, 1 ≤ a →
      (retryFromS op rb j a (r + 1) s).2.attempts = r + 1 ∧
      (retryFromS op rb j a (r + 1) s).2.result = some (Except.error (e (a + r))) ∧
      (retryFromS op rb j a (r + 1) s).2.delays =
        (List.range r).map (fun i => RETRY_DELAY_BASE * 2 ^ (a + i - 1) + j (a + i)) := by
  intro r
  induction r with
  | zero =>
    intro a s ha
    rcases hop : op a s with ⟨s1, r2⟩
    have h2 := hfail a s
    rw [hop] at h2
    simp only at h2
    subst h2
    rw [retryFromS_succ_stop hop (Or.inl rfl)]
    simp
  | succ r ih =>
    intro a s ha
    rcases hop : op a s with ⟨s1, r2⟩
    have h2 := hfail a s
    rw [hop] at h2
    simp only at h2
    subst h2
    rw [retryFromS_succ_retry hop (Nat.succ_ne_zero r) (hret a)]
    obtain ⟨ih1, ih2, ih3⟩ := ih (a + 1) s1 (by omega)
    refine ⟨by simp [ih1], ?_, ?_⟩
    · rw [ih2]
      have h3 : a + 1 + r = a + (r + 1) := by omega
      simp [h3]
    · simp only [ih3]
      rw [List.range_succ_eq_map, List.map_cons, List.map_map]
      have h0 : a + 0 - 1 = a - 1 := by omega
      refine congrArg₂ _ (by simp [h0]) ?_
      apply List.map_congr_left
      intro i _
      have h4 : a + 1 + i - 1 = a + (i + 1) - 1 := by omega
      have h5 : a + 1 + i = a + (i + 1) := by omega
      simp [Function.comp, h4, h5]

/-- C1: for every attempt bound `N ≥ 1`, a wrapped operation failing on
every invocation with retryable errors is invoked exactly `N` times,
`retryWithBackoff` rethrows the last error, and the delay slept before
attempt `k` (for `1 < k ≤ N`) equals `RETRY_DELAY_BASE * 2 ^ (k - 2)` plus
the jitter observed before attempt `k`, hence lies in
`[RETRY_DELAY_BASE * 2 ^ (k - 2), RETRY_DELAY_BASE * 2 ^ (k - 2) + 1000)`;
and an operation whose first failure is not retryable is invoked exactly
once. -/
theorem retryWithBackoff_spec {σ α : Type} (op : Nat → σ → σ × Except JsError α)
    (isOnline : Bool) (jitter : Nat → ℚ) (e : Nat → JsError) (N : Nat)
    (hN : 1 ≤ N)
    (hfail : ∀ a s, (op a s).2 = Except.error (e a))
    (hret : ∀ a, isRetryableError isOnline (e a) = true)
    (hjit : ∀ a, 0 ≤ jitter a ∧ jitter a < 1000) :
    ∀ s : σ,
      (retryWithBackoff op isOnline jitter N s).2.attempts = N ∧
      (retryWithBackoff op isOnline jitter N s).2.result = some (Except.error (e N)) ∧
      (∀ k, 1 < k → k ≤ N →
        (retryWithBackoff op isOnline jitter N s).2.delays[k - 2]? =
          some (RETRY_DELAY_BASE * 2 ^ (k - 2) + jitter (k - 1)) ∧
        RETRY_DELAY_BASE * 2 ^ (k - 2) ≤ RETRY_DELAY_BASE * 2 ^ (k - 2) + jitter (k - 1) ∧
        RETRY_DELAY_BASE * 2 ^ (k - 2) + jitter (k - 1) <
          RETRY_DELAY_BASE * 2 ^ (k - 2) + 1000) ∧
      (∀ (op2 : Nat → σ → σ × Except JsError α) (e0 : JsError),
        (∀ s2, (op2 1 s2).2 = Except.error e0) →
        isRetryableError isOnline e0 = false →
        ∀ s2, (retryWithBackoff op2 isOnline jitter N s2).2.attempts = 1) := by
  intro s
  obtain ⟨n, rfl⟩ : ∃ n, N = n + 1 := ⟨N - 1, by omega⟩
  obtain ⟨h1, h2, h3⟩ :=
    retryFromS_all_error op (isRetryableError isOnline) jitter e hfail hret n 1 s (le_refl 1)
  refine ⟨h1, ?_, ?_, ?_⟩
  · simp only [retryWithBackoff] at h2 ⊢
    rw [h2]
    have : 1 + n = n + 1 := by omega
    rw [this]
  · intro k hk1 hk2
    simp only [retryWithBackoff] at h3 ⊢
    rw [h3]
    constructor
    · rw [List.getElem?_map, List.getElem?_range (by omega : k - 2 < n)]
      have h4 : 1 + (k - 2) - 1 = k - 2 := by omega
      have h5 : 1 + (k - 2) = k - 1 := by omega
      simp [h4, h5]
    · have := hjit (k - 1)
      constructor <;> linarith [this.1, this.2]
  · intro op2 e0 hop2 hnr s2
    rcases hop : op2 1 s2 with ⟨s3, r2⟩
    have h4 := hop2 s2
    rw [hop] at h4
    simp only at h4
    subst h4
    simp only [retryWithBackoff]
    rw [retryFromS_succ_stop hop (Or.inr hnr)]

/-- Witness for C1 at a concrete always-503 operation with `N = 3` and zero
jitter, plus a concrete non-retryable (400) operation. -/
theorem retryWithBackoff_spec_witness :
    (retryWithBackoff
      (fun _ (_ : Unit) => ((), (Except.error ⟨some 503, none⟩ : Except JsError Unit)))
      true (fun _ => 0) 3 ()).2.attempts = 3 ∧
    (retryWithBackoff
      (fun _ (_ : Unit) => ((), (Except.error ⟨some 503, none⟩ : Except JsError Unit)))
      true (fun _ => 0) 3 ()).2.delays[0]? =
        some (RETRY_DELAY_BASE * 2 ^ (0 : Nat) + 0) ∧
    (retryWithBackoff
      (fun _ (_ : Unit) => ((), (Except.error ⟨some 400, some "bad"⟩ : Except JsError Unit)))
      true (fun _ => 0) 3 ()).2.attempts = 1 := by
  have hr : isRetryableError true (⟨some 503, none⟩ : JsError) = true := by decide
  have h := retryWithBackoff_spec
    (fun _ (_ : Unit) => ((), (Except.error ⟨some 503, none⟩ : Except JsError Unit)))
    true (fun _ => 0) (fun _ => (⟨some 503, none⟩ : JsError)) 3 (by decide)
    (fun _ _ => rfl) (fun _ => hr) (fun _ => ⟨le_refl 0, by norm_num⟩) ()
  exact ⟨h.1, (h.2.2.1 2 (by decide) (by decide)).1,
    h.2.2.2 (fun _ _ => ((), (Except.error ⟨some 400, some "bad"⟩ : Except JsError Unit)))
      ⟨some 400, some "bad"⟩ (fun _ => rfl) (by decide) ()⟩

/-- C2: `isRetryableError` returns true exactly when the client is offline,
or the error carries one of the retryable status codes, or its lower-cased
message (empty when absent) contains one of the transient-failure
patterns. -/
theorem isRetryableError_spec (isOnline : Bool) (e : JsError) :
    isRetryableError isOnline e = true ↔
      (isOnline = false ∨
       (∃ s, e.status = some s ∧ s ∈ retryableStatusCodes) ∨
       (∃ pat ∈ retryableMessages, strIncludes (lowerStr (e.message.getD "")) pat = true)) := by
  cases isOnline with
  | false => simp [isRetryableError]
  | true =>
    simp only [isRetryableError]
    constructor
    · intro h
      by_cases hs : statusRetryable e = true
      · refine Or.inr (Or.inl ?_)
        unfold statusRetryable at hs
        rcases he : e.status with _ | s
        · rw [he] at hs
          simp at hs
        · rw [he] at hs
          simp only [Bool.and_eq_true] at hs
          exact ⟨s, rfl, by simpa using hs.2⟩
      · rw [if_neg (by simp) , if_neg hs] at h
        rw [List.any_eq_true] at h
        exact Or.inr (Or.inr h)
    · intro h
      rcases h with h | ⟨s, hs, hmem⟩ | ⟨pat, hmem, hpat⟩
      · exact absurd h (by simp)
      · rw [if_neg (by simp), if_pos ?_]
        unfold statusRetryable
        rw [hs]
        have hs0 : s ≠ 0 := by
          have h6 : s = 408 ∨ s = 429 ∨ s = 500 ∨ s = 502 ∨ s = 503 ∨ s = 504 := by
            simpa [retryableStatusCodes] using hmem
          rcases h6 with rfl | rfl | rfl | rfl | rfl | rfl <;> omega
        simp [hs0, hmem]
      · rw [if_neg (by simp)]
        by_cases hs : statusRetryable e = true
        · simp [hs]
        · rw [if_neg hs, List.any_eq_true]
          exact ⟨pat, hmem, hpat⟩

/-- C7: rendering a fetched post list by repeated prepend displays exactly
the reverse of the fetched order, so with an ascending fetch the newest post
(the last fetched) appears first. -/
theorem loadPosts_order_spec {α : Type} (render : Post → α) (posts : List Post) :
    renderLoadedPosts render posts [] = (posts.map render).reverse ∧
    (renderLoadedPosts render posts []).head? = (posts.map render).getLast? := by
  have key : ∀ (l : List Post) (acc : List α),
      renderLoadedPosts render l acc = (l.map render).reverse ++ acc := by
    intro l
    induction l with
    | nil => intro acc; simp [renderLoadedPosts]
    | cons p rest ih =>
      intro acc
      simp only [renderLoadedPosts, List.foldl_cons, List.map_cons, List.reverse_cons]
      simp only [renderLoadedPosts] at ih
      rw [ih (render p :: acc)]
      simp
  refine ⟨by simpa using key posts [], ?_⟩
  rw [key posts []]
  simp [List.head?_reverse]

/-- Unfolding variant of `retryFromS_succ_ok` for a positive attempt bound
given as `1 ≤ r`. -/
theorem retryFromS_pos_ok {σ ε α : Type} {op : Nat → σ → σ × Except ε α} {rb : ε → Bool}
    {j : Nat → ℚ} {a r : Nat} {s s1 : σ} {v : α} (hr : 1 ≤ r)
    (hop : op a s = (s1, Except.ok v)) :
    retryFromS op rb j a r s = (s1, ⟨1, [], some (Except.ok v)⟩) := by
  obtain ⟨r2, rfl⟩ : ∃ r2, r = r2 + 1 := ⟨r - 1, by omega⟩
  exact retryFromS_succ_ok hop

/-- The state `safeOperation` returns is the state the retry loop left. -/
theorem safeOperation_fst {σ α : Type} (op : Nat → σ → σ × Except JsError α)
    (isOnline : Bool) (jitter : Nat → ℚ) (operationName : String) (sh : Bool) (s : σ) :
    (safeOperation op isOnline jitter operationName sh s).1 =
      (retryWithBackoff op isOnline jitter MAX_RETRIES s).1 := by
  rcases hres : (retryWithBackoff op isOnline jitter MAX_RETRIES s).2.result with _ | res
  · simp [safeOperation, hres]
  · cases res with
    | ok v => simp [safeOperation, hres]
    | error e =>
      rcases hsh : sh with _ | _
      · simp [safeOperation, hres, hsh]
      · rcases hg : getUserFriendlyErrorMessage isOnline e operationName with _ | msg <;>
          simp [safeOperation, hres, hsh, hg]

/-- A retry run ending in success surfaces that value from `safeOperation`. -/
theorem safeOperation_value_ok {σ α : Type} {op : Nat → σ → σ × Except JsError α}
    {isOnline : Bool} {jitter : Nat → ℚ} {operationName : String} {sh : Bool} {s : σ} {v : α}
    (h : (retryWithBackoff op isOnline jitter MAX_RETRIES s).2.result = some (Except.ok v)) :
    (safeOperation op isOnline jitter operationName sh s).2 =
      Except.ok ⟨some v, false, none,
        (retryWithBackoff op isOnline jitter MAX_RETRIES s).2.attempts⟩ := by
  simp [safeOperation, h]

/-- A retry run ending in an error whose user-friendly lookup yields a
message makes `safeOperation` log, alert that message and return the
`null` sentinel. -/
theorem safeOperation_error_alert {σ α : Type} {op : Nat → σ → σ × Except JsError α}
    {isOnline : Bool} {jitter : Nat → ℚ} {operationName : String} {s : σ} {e : JsError}
    {msg : String}
    (h : (retryWithBackoff op isOnline jitter MAX_RETRIES s).2.result =
      some (Except.error e))
    (hmsg : getUserFriendlyErrorMessage isOnline e operationName = some msg) :
    (safeOperation op isOnline jitter operationName true s).2 =
      Except.ok ⟨none, true, some msg,
        (retryWithBackoff op isOnline jitter MAX_RETRIES s).2.attempts⟩ := by
  simp [safeOperation, h, hmsg]

/-- A retry run ending in an error on which the user-friendly lookup would
dereference a missing `message` makes `safeOperation` itself throw: the
TypeError raised inside the catch block propagates to the caller. -/
theorem safeOperation_error_crash {σ α : Type} {op : Nat → σ → σ × Except JsError α}
    {isOnline : Bool} {jitter : Nat → ℚ} {operationName : String} {s : σ} {e : JsError}
    (h : (retryWithBackoff op isOnline jitter MAX_RETRIES s).2.result =
      some (Except.error e))
    (hmsg : getUserFriendlyErrorMessage isOnline e operationName = none) :
    (safeOperation op isOnline jitter operationName true s).2 =
      Except.error messageTypeError := by
  simp [safeOperation, h, hmsg]

/-- Whenever the error carries a `message`, the user-friendly lookup
returns a message (it cannot throw). -/
theorem getUserFriendlyErrorMessage_some (isOnline : Bool) (e : JsError)
    (operationName : String) (m : String) (hm : e.message = some m) :
    ∃ msg, getUserFriendlyErrorMessage isOnline e operationName = some msg := by
  cases isOnline with
  | false => exact ⟨_, rfl⟩
  | true =>
    simp only [getUserFriendlyErrorMessage, hm]
    split_ifs <;> exact ⟨_, rfl⟩

/-- Counterexample to C3 as stated: with the client online and a final
error that carries no `message` field, `safeOperation` does NOT return the
`null` sentinel — the catch block's own `error.message.includes('timeout')`
dereferences `undefined`, so the resulting TypeError propagates to the
caller instead. -/
theorem safeOperation_failure_claim_cex :
    (safeOperation
        (fun _ (_ : Unit) => ((), (Except.error ⟨none, none⟩ : Except JsError Unit)))
        true (fun _ => 0) "Load Posts" true ()).2 =
      Except.error messageTypeError := by
  decide

/-- C3 (amended): when the retry run of an operation ends in an error
(retries exhausted or a non-retryable failure) and either the client is
offline or the final error carries a `message`, `safeOperation` does not
propagate it: it logs, returns the `null` sentinel, and alerts the
user-friendly message, chosen by the first matching rule in source order —
offline, then message containing `timeout`, then `rate limit`, then status
at least 500, then status 401/403, then the generic `<operation> failed`
message. When instead the client is online and the final error has no
`message` field, the catch block's own `error.message.includes` call
raises a TypeError, which `safeOperation` propagates instead of returning
the sentinel. -/
theorem safeOperation_failure_spec {σ α : Type} (op : Nat → σ → σ × Except JsError α)
    (isOnline : Bool) (jitter : Nat → ℚ) (operationName : String) (s : σ) (e : JsError)
    (h : (retryWithBackoff op isOnline jitter MAX_RETRIES s).2.result =
      some (Except.error e)) :
    (isOnline = false →
      (safeOperation op isOnline jitter operationName true s).2 =
        Except.ok ⟨none, true,
          some "You appear to be offline. Please check your internet connection.",
          (retryWithBackoff op isOnline jitter MAX_RETRIES s).2.attempts⟩) ∧
    (∀ m, e.message = some m →
      (safeOperation op isOnline jitter operationName true s).2 =
        Except.ok ⟨none, true, getUserFriendlyErrorMessage isOnline e operationName,
          (retryWithBackoff op isOnline jitter MAX_RETRIES s).2.attempts⟩) ∧
    (isOnline = true → e.message = none →
      (safeOperation op isOnline jitter operationName true s).2 =
        Except.error messageTypeError) ∧
    (∀ m, isOnline = true → e.message = some m →
      (strIncludes m "timeout" = true →
        getUserFriendlyErrorMessage isOnline e operationName =
          some (operationName ++ " is taking too long. Please try again.")) ∧
      (strIncludes m "timeout" = false → strIncludes m "rate limit" = true →
        getUserFriendlyErrorMessage isOnline e operationName =
          some "Too many requests. Please wait a moment and try again.") ∧
      (strIncludes m "timeout" = false → strIncludes m "rate limit" = false →
        statusAtLeast500 e = true →
        getUserFriendlyErrorMessage isOnline e operationName =
          some "Server error. Please try again later.") ∧
      (strIncludes m "timeout" = false → strIncludes m "rate limit" = false →
        statusAtLeast500 e = false → statusIsAuthError e = true →
        getUserFriendlyErrorMessage isOnline e operationName =
          some "Authentication error. Please log in again.") ∧
      (strIncludes m "timeout" = false → strIncludes m "rate limit" = false →
        statusAtLeast500 e = false → statusIsAuthError e = false →
        getUserFriendlyErrorMessage isOnline e operationName =
          some (operationName ++ " failed. Please try again."))) := by
  refine ⟨?_, ?_, ?_, ?_⟩
  · intro hoff
    have hg : getUserFriendlyErrorMessage isOnline e operationName =
        some "You appear to be offline. Please check your internet connection." := by
      simp [getUserFriendlyErrorMessage, hoff]
    rw [safeOperation_error_alert h hg]
  · intro m hm
    obtain ⟨msg, hg⟩ := getUserFriendlyErrorMessage_some isOnline e operationName m hm
    rw [safeOperation_error_alert h hg, hg]
  · intro hon hnone
    subst hon
    have hg : getUserFriendlyErrorMessage true e operationName = none := by
      simp [getUserFriendlyErrorMessage, hnone]
    exact safeOperation_error_crash h hg
  · intro m hon hmsg
    subst hon
    refine ⟨?_, ?_, ?_, ?_, ?_⟩
    · intro h1
      simp [getUserFriendlyErrorMessage, hmsg, h1]
    · intro h1 h2
      simp [getUserFriendlyErrorMessage, hmsg, h1, h2]
    · intro h1 h2 h3
      simp [getUserFriendlyErrorMessage, hmsg, h1, h2, h3]
    · intro h1 h2 h3 h4
      simp [getUserFriendlyErrorMessage, hmsg, h1, h2, h3, h4]
    · intro h1 h2 h3 h4
      simp [getUserFriendlyErrorMessage, hmsg, h1, h2, h3, h4]

/-- Witness for C3: a concrete operation that always fails with a 500
`server error` alerts the server-error message and returns the sentinel,
while one whose error has no message makes the wrapper itself throw. -/
theorem safeOperation_failure_spec_witness :
    (safeOperation
        (fun _ (_ : Unit) =>
          ((), (Except.error ⟨some 500, some "server error"⟩ : Except JsError Unit)))
        true (fun _ => 0) "Load Posts" true ()).2 =
      Except.ok ⟨none, true, some "Server error. Please try again later.", 3⟩ ∧
    getUserFriendlyErrorMessage true ⟨some 500, some "server error"⟩ "Load Posts" =
      some "Server error. Please try again later." ∧
    (safeOperation
        (fun _ (_ : Unit) => ((), (Except.error ⟨none, none⟩ : Except JsError Unit)))
        true (fun _ => 0) "Load Posts" true ()).2 = Except.error messageTypeError := by
  have h := safeOperation_failure_spec
    (fun _ (_ : Unit) =>
      ((), (Except.error ⟨some 500, some "server error"⟩ : Except JsError Unit)))
    true (fun _ => 0) "Load Posts" () ⟨some 500, some "server error"⟩ (by decide)
  have hrule := (h.2.2.2 "server error" rfl rfl).2.2.1 (by decide) (by decide) (by decide)
  have hmain := h.2.1 "server error" rfl
  refine ⟨?_, hrule, ?_⟩
  · rw [hmain, hrule]
    decide
  · have h2 := safeOperation_failure_spec
      (fun _ (_ : Unit) => ((), (Except.error ⟨none, none⟩ : Except JsError Unit)))
      true (fun _ => 0) "Load Posts" () ⟨none, none⟩ (by decide)
    exact h2.2.2.1 rfl rfl

/-- Setting a cookie makes `cookieGet` return the new value. -/
theorem cookieGet_cookieSet_self (jar : CookieJar) (name value : String) :
    cookieGet (cookieSet jar name value) name = some value := by
  simp [cookieGet, cookieSet, List.find?_cons_of_pos]

/-- Setting the liked flag makes `hasLiked` true. -/
theorem hasLiked_cookieSet_self (jar : CookieJar) (postId : String) :
    hasLiked (cookieSet jar ("liked_" ++ postId) "true") postId = true := by
  simp [hasLiked, cookieGet_cookieSet_self]

/-- Updating a row that is present makes `dbGet` return the new count. -/
theorem dbGet_dbSet_self (db : PostsTable) (postId : String) (x v : Nat)
    (h : dbGet db postId = some x) : dbGet (dbSet db postId v) postId = some v := by
  induction db with
  | nil => simp [dbGet] at h
  | cons p rest ih =>
    by_cases hbeq : (p.1 == postId) = true
    · have heq : p.1 = postId := by simpa using hbeq
      have hstep : dbSet (p :: rest) postId v = (postId, v) :: dbSet rest postId v := by
        simp only [dbSet, List.map_cons, hbeq, if_true]
      rw [hstep]
      simp [dbGet, List.find?_cons_of_pos]
    · have hbf : (p.1 == postId) = false := by simpa using hbeq
      have hstep : dbSet (p :: rest) postId v = p :: dbSet rest postId v := by
        simp only [dbSet, List.map_cons, hbf, Bool.false_eq_true, if_false]
      rw [hstep]
      have h2 : dbGet rest postId = some x := by
        simp only [dbGet] at h
        rw [List.find?_cons_of_neg _ (by simp [hbf])] at h
        exact h
      have h3 := ih h2
      simp only [dbGet] at h3 ⊢
      rw [List.find?_cons_of_neg _ (by simp [hbf])]
      exact h3

/-- One `likePost` attempt preserves the like invariant, whatever the
backend outcome. -/
theorem likeAttempt_inv (postId : String) (init : Nat) (selectOk updateOk : Bool)
    (st : LikeState) (h : likeInv postId init st) :
    likeInv postId init (likeAttempt postId selectOk updateOk st).1 := by
  by_cases hl : hasLiked st.cookies postId = true
  · simpa [likeAttempt, hl] using h
  · have hl2 : hasLiked st.cookies postId = false := by simpa using hl
    have hdb : dbGet st.db postId = some init := by
      rcases h with ⟨_, h2⟩ | ⟨h1, _⟩
      · exact h2
      · exact absurd h1 hl
    rcases hsel : selectOk with _ | _
    · simp only [likeAttempt, hl2, Bool.false_eq_true, if_false]
      exact Or.inl ⟨hl2, hdb⟩
    · rcases hupd : updateOk with _ | _
      · simp only [likeAttempt, hl2, Bool.false_eq_true, if_false, hdb]
        exact Or.inl ⟨hl2, hdb⟩
      · simp only [likeAttempt, hl2, Bool.false_eq_true, if_false, hdb]
        refine Or.inr ⟨hasLiked_cookieSet_self _ _, ?_⟩
        exact dbGet_dbSet_self _ _ init _ hdb

/-- A pointwise-preserved state predicate is preserved by the whole retry
loop. -/
theorem retryFromS_preserves {σ ε α : Type} (P : σ → Prop) (op : Nat → σ → σ × Except ε α)
    (rb : ε → Bool) (j : Nat → ℚ) (hop : ∀ a s, P s → P (op a s).1) :
    ∀ r a s, P s → P (retryFromS op rb j a r s).1 := by
  intro r
  induction r with
  | zero => intro a s h; simpa [retryFromS] using h
  | succ r ih =>
    intro a s h
    rcases hop2 : op a s with ⟨s1, res⟩
    have hP1 : P s1 := by
      have h2 := hop a s h
      rw [hop2] at h2
      exact h2
    cases res with
    | ok v => rw [retryFromS_succ_ok hop2]; exact hP1
    | error e =>
      by_cases hr : r = 0
      · rw [retryFromS_succ_stop hop2 (Or.inl hr)]; exact hP1
      · by_cases hrb : rb e = true
        · rw [retryFromS_succ_retry hop2 hr hrb]; exact ih (a + 1) s1 hP1
        · rw [retryFromS_succ_stop hop2 (Or.inr (by simpa using hrb))]; exact hP1

/-- Dichotomy through the retry loop: from a `P`-state, every run either
ends in a success satisfying `Q` or leaves a `P`-state, provided every
single attempt from a `P`-state does so. -/
theorem retryFromS_ok_or {σ ε α : Type} (P : σ → Prop) (Q : α → Prop)
    (op : Nat → σ → σ × Except ε α) (rb : ε → Bool) (j : Nat → ℚ)
    (hop : ∀ a s, P s →
      (∃ v, (op a s).2 = Except.ok v ∧ Q v) ∨
      ((∃ e0, (op a s).2 = Except.error e0) ∧ P (op a s).1)) :
    ∀ r a s, P s →
      (∃ v, (retryFromS op rb j a r s).2.result = some (Except.ok v) ∧ Q v) ∨
      P (retryFromS op rb j a r s).1 := by
  intro r
  induction r with
  | zero => intro a s h; right; simpa [retryFromS] using h
  | succ r ih =>
    intro a s h
    rcases hop2 : op a s with ⟨s1, res⟩
    rcases hop a s h with ⟨v, hv, hq⟩ | ⟨⟨e0, he⟩, hP⟩
    · rw [hop2] at hv
      simp only at hv
      subst hv
      rw [retryFromS_succ_ok hop2]
      exact Or.inl ⟨v, rfl, hq⟩
    · rw [hop2] at he hP
      simp only at he hP
      subst he
      by_cases hr : r = 0
      · rw [retryFromS_succ_stop hop2 (Or.inl hr)]; exact Or.inr hP
      · by_cases hrb : rb e0 = true
        · rw [retryFromS_succ_retry hop2 hr hrb]
          simpa using ih (a + 1) s1 hP
        · rw [retryFromS_succ_stop hop2 (Or.inr (by simpa using hrb))]; exact Or.inr hP

/-- C4: the liked flag is false on a fresh browser (no cookie); once it is
set, `likePost` is a complete no-op — the very first invocation takes the
already-liked branch, issues no remote read or write, and leaves every piece
of state untouched; and consequently any sequence of `likePost` calls from
an un-liked state raises the post's stored like count by at most one. -/
theorem likePost_once_spec :
    (∀ postId : String, hasLiked ([] : CookieJar) postId = false) ∧
    (∀ (postId : String) (isOnline : Bool) (jitter : Nat → ℚ)
       (selectOk updateOk : Nat → Bool) (st : LikeState),
       hasLiked st.cookies postId = true →
         likePostRun postId isOnline jitter selectOk updateOk st =
           (st, Except.ok ⟨some false, false, none, 1⟩)) ∧
    (∀ (postId : String) (cfgs : List LikeCfg) (st : LikeState) (init : Nat),
       hasLiked st.cookies postId = false → dbGet st.db postId = some init →
         (dbGet (likePostSeq postId cfgs st).db postId).getD 0 ≤ init + 1) := by
  refine ⟨fun postId => rfl, ?_, ?_⟩
  · intro postId isOnline jitter selectOk updateOk st h
    have hop : likeAttempt postId (selectOk 1) (updateOk 1) st = (st, Except.ok false) := by
      simp [likeAttempt, h]
    simp only [likePostRun, safeOperation, retryWithBackoff, MAX_RETRIES]
    rw [retryFromS_pos_ok (by omega) hop]
  · intro postId cfgs st init h0 hdb
    have hseq : ∀ (cfgs2 : List LikeCfg) (st2 : LikeState), likeInv postId init st2 →
        likeInv postId init (likePostSeq postId cfgs2 st2) := by
      intro cfgs2
      induction cfgs2 with
      | nil => intro st2 h2; simpa [likePostSeq] using h2
      | cons c rest ih =>
        intro st2 h2
        simp only [likePostSeq, List.foldl_cons]
        simp only [likePostSeq] at ih
        apply ih
        simp only [likePost, likePostRun, safeOperation_fst, retryWithBackoff]
        exact retryFromS_preserves (likeInv postId init) _ _ _
          (fun a s hs => likeAttempt_inv postId init (c.selectOk a) (c.updateOk a) s hs)
          MAX_RETRIES 1 st2 h2
    have hfin := hseq cfgs st (Or.inl ⟨h0, hdb⟩)
    rcases hfin with ⟨_, h2⟩ | ⟨_, h2⟩ <;> simp [h2]

/-- Witness for C4: a fresh browser, a no-op call on an already-liked state,
and a two-call sequence that raises the count from 5 to at most 6. -/
theorem likePost_once_spec_witness :
    hasLiked ([] : CookieJar) "p1" = false ∧
    likePostRun "p1" true (fun _ => 0) (fun _ => true) (fun _ => true)
        ⟨[("liked_p1", "true")], [("p1", 5)], 0, 0⟩ =
      (⟨[("liked_p1", "true")], [("p1", 5)], 0, 0⟩,
       Except.ok ⟨some false, false, none, 1⟩) ∧
    (dbGet (likePostSeq "p1"
        [⟨true, fun _ => 0, fun _ => true, fun _ => true⟩,
         ⟨true, fun _ => 0, fun _ => true, fun _ => true⟩]
        ⟨[], [("p1", 5)], 0, 0⟩).db "p1").getD 0 ≤ 5 + 1 := by
  exact ⟨likePost_once_spec.1 "p1",
    likePost_once_spec.2.1 "p1" true (fun _ => 0) (fun _ => true) (fun _ => true)
      ⟨[("liked_p1", "true")], [("p1", 5)], 0, 0⟩ (by decide),
    likePost_once_spec.2.2 "p1"
      [⟨true, fun _ => 0, fun _ => true, fun _ => true⟩,
       ⟨true, fun _ => 0, fun _ => true, fun _ => true⟩]
      ⟨[], [("p1", 5)], 0, 0⟩ 5 (by decide) (by decide)⟩

/-- C10: when a `likePost` run produces no value (the safe-operation
wrapper returned the `null` sentinel — or itself threw — because the count
read or the count write failed on every attempt, including a missing
post), the liked cookie is still unset afterwards and the stored count is
unchanged, so the like can be attempted again. -/
theorem likePost_failure_spec (postId : String) (isOnline : Bool) (jitter : Nat → ℚ)
    (selectOk updateOk : Nat → Bool) (st : LikeState)
    (h0 : hasLiked st.cookies postId = false)
    (hfail : runValue (likePostRun postId isOnline jitter selectOk updateOk st).2 = none) :
    hasLiked (likePostRun postId isOnline jitter selectOk updateOk st).1.cookies postId
      = false ∧
    dbGet (likePostRun postId isOnline jitter selectOk updateOk st).1.db postId =
      dbGet st.db postId := by
  have hcases : ∀ (selOk updOk : Bool) (s : LikeState),
      hasLiked s.cookies postId = false →
      (likeAttempt postId selOk updOk s).2 = Except.ok true ∨
      ((∃ e0, (likeAttempt postId selOk updOk s).2 = Except.error e0) ∧
       (likeAttempt postId selOk updOk s).1.cookies = s.cookies ∧
       (likeAttempt postId selOk updOk s).1.db = s.db) := by
    intro selOk updOk s h
    rcases hsel : selOk with _ | _
    · right
      simp [likeAttempt, h, hsel]
    · rcases hdb : dbGet s.db postId with _ | likes
      · right
        simp [likeAttempt, h, hsel, hdb]
      · rcases hupd : updOk with _ | _
        · right
          simp [likeAttempt, h, hsel, hdb, hupd]
        · left
          simp [likeAttempt, h, hsel, hdb, hupd]
  have hdich := retryFromS_ok_or
    (fun s => hasLiked s.cookies postId = false ∧ dbGet s.db postId = dbGet st.db postId)
    (fun v => v = true)
    (fun attempt s => likeAttempt postId (selectOk attempt) (updateOk attempt) s)
    (isRetryableError isOnline) jitter ?hop MAX_RETRIES 1 st ⟨h0, rfl⟩
  case hop =>
    intro a s hs
    rcases hcases (selectOk a) (updateOk a) s hs.1 with hok | ⟨⟨e0, he⟩, hc, hd⟩
    · exact Or.inl ⟨true, hok, rfl⟩
    · refine Or.inr ⟨⟨e0, he⟩, ?_, ?_⟩
      · rw [hc]; exact hs.1
      · rw [hd]; exact hs.2
  rcases hdich with ⟨v, hres, hq⟩ | hP
  · have := @safeOperation_value_ok LikeState Bool
      (fun attempt s => likeAttempt postId (selectOk attempt) (updateOk attempt) s)
      isOnline jitter "Like Post" true st v (by simpa [retryWithBackoff] using hres)
    rw [likePostRun] at hfail
    rw [this] at hfail
    simp [runValue] at hfail
  · have hfst : (likePostRun postId isOnline jitter selectOk updateOk st).1 =
        (retryFromS (fun attempt s => likeAttempt postId (selectOk attempt) (updateOk attempt) s)
          (isRetryableError isOnline) jitter 1 MAX_RETRIES st).1 := by
      rw [likePostRun, safeOperation_fst, retryWithBackoff]
    rw [hfst]
    exact hP

/-- Witness for C10: the read fails on every attempt (network error), so the
run exhausts its retries, returns the sentinel, and leaves the liked flag
unset and the count at 5. -/
theorem likePost_failure_spec_witness :
    hasLiked (likePostRun "p1" true (fun _ => 0) (fun _ => false) (fun _ => true)
        ⟨[], [("p1", 5)], 0, 0⟩).1.cookies "p1" = false ∧
    dbGet (likePostRun "p1" true (fun _ => 0) (fun _ => false) (fun _ => true)
        ⟨[], [("p1", 5)], 0, 0⟩).1.db "p1" =
      dbGet (⟨[], [("p1", 5)], 0, 0⟩ : LikeState).db "p1" := by
  exact likePost_failure_spec "p1" true (fun _ => 0) (fun _ => false) (fun _ => true)
    ⟨[], [("p1", 5)], 0, 0⟩ (by decide) (by decide)

/-- Trace and final state of the retry loop over an operation that always
fails the same retryable way, transforming the state by `f` each attempt. -/
theorem retryFromS_const_error {σ ε α : Type} (op : Nat → σ → σ × Except ε α) (rb : ε → Bool)
    (j : Nat → ℚ) (e0 : ε) (f : σ → σ)
    (hop : ∀ a s, op a s = (f s, Except.error e0)) (hrb : rb e0 = true) :
    ∀ r a s,
      (retryFromS op rb j a (r + 1) s).1 = f^[r + 1] s ∧
      (retryFromS op rb j a (r + 1) s).2.attempts = r + 1 ∧
      (retryFromS op rb j a (r + 1) s).2.result = some (Except.error e0) := by
  intro r
  induction r with
  | zero =>
    intro a s
    rw [retryFromS_succ_stop (hop a s) (Or.inl rfl)]
    simp
  | succ r ih =>
    intro a s
    rw [retryFromS_succ_retry (hop a s) (Nat.succ_ne_zero r) hrb]
    obtain ⟨h1, h2, h3⟩ := ih (a + 1) (f s)
    refine ⟨?_, by simp [h2], h3⟩
    simp only [h1]
    rw [← Function.iterate_succ_apply]

/-- Counterexample to C5 as stated: submitting with an empty title while the
client is offline IS re-invoked by the retry wrapper — `isRetryableError`
returns true for every error when offline, so the validation failure is
retried until the attempt bound: 3 invocations, not 1. -/
theorem submitPost_validation_claim_cex :
    runAttempts (submitPost "" "x" false (fun _ => 0) (fun _ => true) ⟨0, []⟩).2 = 3 ∧
    ¬ runAttempts (submitPost "" "x" false (fun _ => 0) (fun _ => true) ⟨0, []⟩).2 = 1 := by
  constructor
  · decide
  · decide

/-- C5 (amended): a submission with an empty or whitespace-only title or
content issues no remote insert on any attempt and surfaces the validation
alert immediately, and the resulting `Invalid post data provided` failure is
never retried while the client is online (exactly one invocation); when the
client is offline, however, the offline check classifies every failure as
retryable, so the retry wrapper re-invokes the validation failure up to
`MAX_RETRIES` times — still with zero remote calls, one validation alert per
attempt. -/
theorem submitPost_validation_spec (title content : String) (isOnline : Bool)
    (jitter : Nat → ℚ) (insertOk : Nat → Bool) (st : SubmitState)
    (hval : jsTrim title = "" ∨ jsTrim content = "") :
    (submitPost title content isOnline jitter insertOk st).1.remoteInserts =
      st.remoteInserts ∧
    runValue (submitPost title content isOnline jitter insertOk st).2 = none ∧
    (isOnline = true →
      (submitPost title content isOnline jitter insertOk st).2 =
        Except.ok ⟨none, true,
          some ("Submit Post" ++ " failed. Please try again."), 1⟩ ∧
      (submitPost title content isOnline jitter insertOk st).1.alerts =
        st.alerts ++ [validationAlert title content]) ∧
    (isOnline = false →
      (submitPost title content isOnline jitter insertOk st).2 =
        Except.ok ⟨none, true,
          some "You appear to be offline. Please check your internet connection.",
          MAX_RETRIES⟩ ∧
      (submitPost title content isOnline jitter insertOk st).1.alerts =
        st.alerts ++ List.replicate MAX_RETRIES (validationAlert title content)) := by
  have hvf : (validateFields [("Title", title), ("Content", content)]).1 = false := by
    rcases hval with h | h
    · simp [validateFields, h]
    · by_cases ht : jsTrim title = ""
      · simp [validateFields, ht]
      · simp [validateFields, ht, h]
  have hatt : ∀ (b : Bool) (s : SubmitState),
      submitAttempt title content b s =
        ({ s with alerts := s.alerts ++ [validationAlert title content] },
         Except.error ⟨none, some "Invalid post data provided"⟩) := by
    intro b s
    simp [submitAttempt, hvf, validationAlert]
  cases isOnline with
  | true =>
    have hnr : isRetryableError true
        (⟨none, some "Invalid post data provided"⟩ : JsError) = false := by decide
    have hrun : retryFromS (fun a s => submitAttempt title content (insertOk a) s)
        (isRetryableError true) jitter 1 MAX_RETRIES st =
        ({ st with alerts := st.alerts ++ [validationAlert title content] },
         ⟨1, [], some (Except.error ⟨none, some "Invalid post data provided"⟩)⟩) := by
      rw [show MAX_RETRIES = 2 + 1 from rfl,
        retryFromS_succ_stop (hatt (insertOk 1) st) (Or.inr hnr)]
    have hres : (retryWithBackoff (fun a s => submitAttempt title content (insertOk a) s)
        true jitter MAX_RETRIES st).2.result =
          some (Except.error ⟨none, some "Invalid post data provided"⟩) := by
      simp only [retryWithBackoff]
      rw [hrun]
    have hg : getUserFriendlyErrorMessage true
        (⟨none, some "Invalid post data provided"⟩ : JsError) "Submit Post" =
        some ("Submit Post" ++ " failed. Please try again.") := by decide
    refine ⟨?_, ?_, ?_, ?_⟩
    · simp only [submitPost]
      rw [safeOperation_fst]
      simp only [retryWithBackoff]
      rw [hrun]
    · simp only [submitPost]
      rw [safeOperation_error_alert hres hg]
      rfl
    · intro _
      constructor
      · simp only [submitPost]
        rw [safeOperation_error_alert hres hg]
        simp only [retryWithBackoff]
        rw [hrun]
      · simp only [submitPost]
        rw [safeOperation_fst]
        simp only [retryWithBackoff]
        rw [hrun]
    · intro hc
      cases hc
  | false =>
    have hret : isRetryableError false
        (⟨none, some "Invalid post data provided"⟩ : JsError) = true := by decide
    obtain ⟨h1, h2, h3⟩ := retryFromS_const_error
      (fun a s => submitAttempt title content (insertOk a) s)
      (isRetryableError false) jitter
      (⟨none, some "Invalid post data provided"⟩ : JsError)
      (fun s => { s with alerts := s.alerts ++ [validationAlert title content] })
      (fun a s => hatt (insertOk a) s) hret 2 1 st
    have hres : (retryWithBackoff (fun a s => submitAttempt title content (insertOk a) s)
        false jitter MAX_RETRIES st).2.result =
          some (Except.error ⟨none, some "Invalid post data provided"⟩) := by
      simp only [retryWithBackoff]
      exact h3
    have hiter : (fun s => { s with
        alerts := s.alerts ++ [validationAlert title content] })^[2 + 1] st =
        { st with alerts := st.alerts ++
            List.replicate MAX_RETRIES (validationAlert title content) } := by
      rw [show (2 + 1 : Nat) = 1 + 1 + 1 from rfl, Function.iterate_succ_apply',
        Function.iterate_succ_apply', Function.iterate_one]
      simp [MAX_RETRIES, List.replicate]
    have hg : getUserFriendlyErrorMessage false
        (⟨none, some "Invalid post data provided"⟩ : JsError) "Submit Post" =
        some "You appear to be offline. Please check your internet connection." := by
      decide
    refine ⟨?_, ?_, ?_, ?_⟩
    · simp only [submitPost]
      rw [safeOperation_fst]
      simp only [retryWithBackoff]
      rw [show MAX_RETRIES = 2 + 1 from rfl, h1, hiter]
    · simp only [submitPost]
      rw [safeOperation_error_alert hres hg]
      rfl
    · intro hc
      cases hc
    · intro _
      constructor
      · simp only [submitPost]
        rw [safeOperation_error_alert hres hg]
        simp only [retryWithBackoff]
        rw [show MAX_RETRIES = 2 + 1 from rfl, h2]
      · simp only [submitPost]
        rw [safeOperation_fst]
        simp only [retryWithBackoff]
        rw [show MAX_RETRIES = 2 + 1 from rfl, h1, hiter]
        rfl

/-- Witness for the amended C5: an empty title online (one attempt, one
validation alert, no insert) and offline (three attempts, three alerts, no
insert). -/
theorem submitPost_validation_spec_witness :
    (submitPost "" "x" true (fun _ => 0) (fun _ => true) ⟨0, []⟩).1.remoteInserts = 0 ∧
    (submitPost "" "x" true (fun _ => 0) (fun _ => true) ⟨0, []⟩).2 =
      Except.ok ⟨none, true, some ("Submit Post" ++ " failed. Please try again."), 1⟩ ∧
    (submitPost " " "x" false (fun _ => 0) (fun _ => true) ⟨0, []⟩).1.alerts =
      [] ++ List.replicate MAX_RETRIES (validationAlert " " "x") := by
  have hon := submitPost_validation_spec "" "x" true (fun _ => 0) (fun _ => true)
    ⟨0, []⟩ (Or.inl (by decide))
  have hoff := submitPost_validation_spec " " "x" false (fun _ => 0) (fun _ => true)
    ⟨0, []⟩ (Or.inl (by decide))
  exact ⟨hon.1, (hon.2.2.1 rfl).1, (hoff.2.2.2 rfl).2⟩

/-- A pattern is found at the head of any list it prefixes. -/
theorem leadsWith_append (pat rest : List Char) : leadsWith pat (pat ++ rest) = true := by
  induction pat with
  | nil => rfl
  | cons p ps ih => simp [leadsWith, ih]

/-- A pattern found at the head is found. -/
theorem occursIn_of_leadsWith (pat l : List Char) (h : leadsWith pat l = true) :
    occursIn pat l = true := by
  cases l with
  | nil =>
    cases pat with
    | nil => rfl
    | cons p ps => simp [leadsWith] at h
  | cons c cs => simp [occursIn, h]

/-- A pattern found in a list is found after prepending anything. -/
theorem occursIn_append_left (pat x l : List Char) (h : occursIn pat l = true) :
    occursIn pat (x ++ l) = true := by
  induction x with
  | nil => simpa using h
  | cons c cs ih => simp [occursIn, ih]

/-- String append concatenates the underlying character lists. -/
theorem strData_append (a b : String) : (a ++ b).data = a.data ++ b.data := rfl

/-- JavaScript `includes` finds a pattern spliced between two strings. -/
theorem strIncludes_append (A pat B : String) : strIncludes (A ++ pat ++ B) pat = true := by
  simp only [strIncludes, strData_append]
  rw [List.append_assoc]
  exact occursIn_append_left pat.data A.data (pat.data ++ B.data)
    (occursIn_of_leadsWith _ (pat.data ++ B.data) (leadsWith_append pat.data B.data))

/-- Entity-decoding inverts the per-character HTML escaping. -/
theorem unescapeChars_escapeChar (s : List Char) :
    unescapeChars (s.flatMap escapeChar) = s := by
  induction s with
  | nil => simp [unescapeChars]
  | cons c cs ih =>
    rw [List.flatMap_cons]
    by_cases h1 : c = '&'
    · subst h1
      rw [show escapeChar '&' = ['&', 'a', 'm', 'p', ';'] from rfl]
      simp only [List.cons_append, List.nil_append]
      rw [unescapeChars.eq_def]
      simp [ih]
    · by_cases h2 : c = '<'
      · subst h2
        rw [show escapeChar '<' = ['&', 'l', 't', ';'] from rfl]
        simp only [List.cons_append, List.nil_append]
        rw [unescapeChars.eq_def]
        simp [ih]
      · by_cases h3 : c = '>'
        · subst h3
          rw [show escapeChar '>' = ['&', 'g', 't', ';'] from rfl]
          simp only [List.cons_append, List.nil_append]
          rw [unescapeChars.eq_def]
          simp [ih]
        · rw [show escapeChar c = [c] by simp [escapeChar, h1, h2, h3]]
          simp only [List.cons_append, List.nil_append]
          rw [unescapeChars.eq_def]
          simp [h1, ih]

/-- Entity-decoding recovers the exact text `escapeHtml` was given: the
rendered node's text content equals the literal input. -/
theorem unescapeHtml_escapeHtml (s : String) : unescapeHtml (escapeHtml s) = s := by
  obtain ⟨l⟩ := s
  simp only [escapeHtml, unescapeHtml]
  rw [unescapeChars_escapeChar]

/-- `escapeHtml` output never contains a raw `<`, so no tag can be parsed
from it. -/
theorem escapeHtml_no_tag (s : String) : (escapeHtml s).data.all (fun ch => ch != '<') = true := by
  simp only [escapeHtml]
  rw [List.all_eq_true]
  intro ch hch
  rw [List.mem_flatMap] at hch
  obtain ⟨c, _, hc⟩ := hch
  by_cases h1 : c = '&'
  · rw [h1, show escapeChar '&' = ['&', 'a', 'm', 'p', ';'] from rfl] at hc
    simp only [List.mem_cons, List.mem_singleton, List.not_mem_nil, or_false] at hc
    rcases hc with rfl | rfl | rfl | rfl | rfl <;> decide
  · by_cases h2 : c = '<'
    · rw [h2, show escapeChar '<' = ['&', 'l', 't', ';'] from rfl] at hc
      simp only [List.mem_cons, List.mem_singleton, List.not_mem_nil, or_false] at hc
      rcases hc with rfl | rfl | rfl | rfl <;> decide
    · by_cases h3 : c = '>'
      · rw [h3, show escapeChar '>' = ['&', 'g', 't', ';'] from rfl] at hc
        simp only [List.mem_cons, List.mem_singleton, List.not_mem_nil, or_false] at hc
        rcases hc with rfl | rfl | rfl | rfl <;> decide
      · rw [show escapeChar c = [c] by simp [escapeChar, h1, h2, h3]] at hc
        simp only [List.mem_singleton] at hc
        subst hc
        simpa using h2

/-- Hex digits round-trip for byte nibbles. -/
theorem hexVal_hexDigitChar : ∀ b, b < 16 → hexVal (hexDigitChar b) = some b := by decide

/-- Tokenising a percent-encoded byte yields that byte. -/
theorem pctTokens_encByte (b : Nat) (hb : b < 256) (rest : List Char) :
    pctTokens (pctEncodeByte b ++ rest) =
      (pctTokens rest).map (fun ts => Sum.inl b :: ts) := by
  have h1 := hexVal_hexDigitChar (b / 16) (by omega)
  have h2 := hexVal_hexDigitChar (b % 16) (by omega)
  have h3 : 16 * (b / 16) + b % 16 = b := by omega
  simp only [pctEncodeByte, List.cons_append, List.nil_append]
  rw [pctTokens.eq_def]
  simp [h1, h2, h3]

/-- Tokenising a run of percent-encoded bytes yields that byte run. -/
theorem pctTokens_bytes : ∀ (bs : List Nat), (∀ b ∈ bs, b < 256) → ∀ rest : List Char,
    pctTokens (bs.flatMap pctEncodeByte ++ rest) =
      (pctTokens rest).map (fun ts => bs.map Sum.inl ++ ts) := by
  intro bs
  induction bs with
  | nil =>
    intro _ rest
    simp
  | cons b bs2 ih =>
    intro hlt rest
    rw [List.flatMap_cons, List.append_assoc,
      pctTokens_encByte b (hlt b (by simp)) _,
      ih (fun x hx => hlt x (by simp [hx])) rest]
    rw [Option.map_map]
    rfl

/-- Tokenising a literal (non-percent) character keeps it. -/
theorem pctTokens_lit (c : Char) (hc : c ≠ '%') (rest : List Char) :
    pctTokens (c :: rest) = (pctTokens rest).map (fun ts => Sum.inr c :: ts) := by
  rw [pctTokens.eq_def]
  simp [hc]

/-- Unreserved characters are never the percent sign. -/
theorem unreserved_ne_pct (c : Char) (h : unreservedURIChar c = true) : c ≠ '%' := by
  intro hc
  subst hc
  exact absurd h (by decide)

/-- Every UTF-8 byte of a character is a byte. -/
theorem utf8Bytes_lt_256 (c : Char) : ∀ b ∈ utf8Bytes c, b < 256 := by
  have hv : c.toNat < 0xd800 ∨ (0xdfff < c.toNat ∧ c.toNat < 0x110000) := c.valid
  intro b hb
  simp only [utf8Bytes] at hb
  by_cases h1 : c.toNat < 0x80
  · rw [if_pos h1] at hb
    simp only [List.mem_singleton] at hb
    omega
  · by_cases h2 : c.toNat < 0x800
    · rw [if_neg h1, if_pos h2] at hb
      simp only [List.mem_cons, List.mem_singleton, List.not_mem_nil, or_false] at hb
      rcases hb with rfl | rfl <;> omega
    · by_cases h3 : c.toNat < 0x10000
      · rw [if_neg h1, if_neg h2, if_pos h3] at hb
        simp only [List.mem_cons, List.mem_singleton, List.not_mem_nil, or_false] at hb
        rcases hb with rfl | rfl | rfl <;> omega
      · rw [if_neg h1, if_neg h2, if_neg h3] at hb
        simp only [List.mem_cons, List.mem_singleton, List.not_mem_nil, or_false] at hb
        rcases hb with rfl | rfl | rfl | rfl <;> omega

/-- UTF-8 decoding undoes the byte encoding of one character, in front of
any remaining tokens. -/
theorem utf8Run_bytes (c : Char) (ts : List (Sum Nat Char)) :
    utf8Run none ((utf8Bytes c).map Sum.inl ++ ts) =
      (utf8Run none ts).map (fun l => c :: l) := by
  have hv : c.toNat < 0xd800 ∨ (0xdfff < c.toNat ∧ c.toNat < 0x110000) := c.valid
  have hofn : Char.ofNat c.toNat = c := Char.ofNat_toNat c
  by_cases h1 : c.toNat < 0x80
  · rw [show utf8Bytes c = [c.toNat] by simp [utf8Bytes, h1]]
    simp only [List.map_cons, List.map_nil, List.cons_append, List.nil_append]
    simp [utf8Run, h1, hofn]
  · by_cases h2 : c.toNat < 0x800
    · rw [show utf8Bytes c = [0xC0 + c.toNat / 0x40, 0x80 + c.toNat % 0x40] by
        simp [utf8Bytes, h1, h2]]
      simp only [List.map_cons, List.map_nil, List.cons_append, List.nil_append]
      have hA : ¬ (0xC0 + c.toNat / 0x40 < 0x80) := by omega
      have hB : ¬ (0xC0 + c.toNat / 0x40 < 0xC2) := by omega
      have hC : 0xC0 + c.toNat / 0x40 < 0xE0 := by omega
      have hD : 0x80 ≤ 0x80 + c.toNat % 0x40 ∧ 0x80 + c.toNat % 0x40 < 0xC0 := by omega
      have hcp : (0xC0 + c.toNat / 0x40 - 0xC0) * 0x40 + (0x80 + c.toNat % 0x40 - 0x80) =
          c.toNat := by omega
      have hS : (0x80 : Nat) ≤ c.toNat ∧ (c.toNat < 0xD800 ∨ 0xDFFF < c.toNat) ∧
          c.toNat < 0x110000 := by omega
      simp only [utf8Run, if_neg hA, if_neg hB, if_pos hC, if_pos hD, hcp]
      simp [hS, hofn]
    · by_cases h3 : c.toNat < 0x10000
      · rw [show utf8Bytes c =
            [0xE0 + c.toNat / 0x1000, 0x80 + c.toNat / 0x40 % 0x40,
             0x80 + c.toNat % 0x40] by simp [utf8Bytes, h1, h2, h3]]
        simp only [List.map_cons, List.map_nil, List.cons_append, List.nil_append]
        have hA : ¬ (0xE0 + c.toNat / 0x1000 < 0x80) := by omega
        have hB : ¬ (0xE0 + c.toNat / 0x1000 < 0xC2) := by omega
        have hC : ¬ (0xE0 + c.toNat / 0x1000 < 0xE0) := by omega
        have hD : 0xE0 + c.toNat / 0x1000 < 0xF0 := by omega
        have hE : 0x80 ≤ 0x80 + c.toNat / 0x40 % 0x40 ∧
            0x80 + c.toNat / 0x40 % 0x40 < 0xC0 := by omega
        have hF : 0x80 ≤ 0x80 + c.toNat % 0x40 ∧ 0x80 + c.toNat % 0x40 < 0xC0 := by omega
        have hacc : (0xE0 + c.toNat / 0x1000 - 0xE0) * 0x40 +
            (0x80 + c.toNat / 0x40 % 0x40 - 0x80) = c.toNat / 0x40 := by omega
        have hcp : c.toNat / 0x40 * 0x40 + (0x80 + c.toNat % 0x40 - 0x80) = c.toNat := by
          omega
        have hS : (0x800 : Nat) ≤ c.toNat ∧ (c.toNat < 0xD800 ∨ 0xDFFF < c.toNat) ∧
            c.toNat < 0x110000 := by omega
        simp only [utf8Run, if_neg hA, if_neg hB, if_neg hC, if_pos hD, if_pos hE,
          if_pos hF, hacc, hcp]
        simp [hS, hofn]
      · rw [show utf8Bytes c =
            [0xF0 + c.toNat / 0x40000, 0x80 + c.toNat / 0x1000 % 0x40,
             0x80 + c.toNat / 0x40 % 0x40, 0x80 + c.toNat % 0x40] by
          simp [utf8Bytes, h1, h2, h3]]
        simp only [List.map_cons, List.map_nil, List.cons_append, List.nil_append]
        have hub : c.toNat < 0x110000 := by omega
        have hA : ¬ (0xF0 + c.toNat / 0x40000 < 0x80) := by omega
        have hB : ¬ (0xF0 + c.toNat / 0x40000 < 0xC2) := by omega
        have hC : ¬ (0xF0 + c.toNat / 0x40000 < 0xE0) := by omega
        have hD : ¬ (0xF0 + c.toNat / 0x40000 < 0xF0) := by omega
        have hE : 0xF0 + c.toNat / 0x40000 < 0xF5 := by omega
        have hF : 0x80 ≤ 0x80 + c.toNat / 0x1000 % 0x40 ∧
            0x80 + c.toNat / 0x1000 % 0x40 < 0xC0 := by omega
        have hG : 0x80 ≤ 0x80 + c.toNat / 0x40 % 0x40 ∧
            0x80 + c.toNat / 0x40 % 0x40 < 0xC0 := by omega
        have hH : 0x80 ≤ 0x80 + c.toNat % 0x40 ∧ 0x80 + c.toNat % 0x40 < 0xC0 := by omega
        have hacc1 : (0xF0 + c.toNat / 0x40000 - 0xF0) * 0x40 +
            (0x80 + c.toNat / 0x1000 % 0x40 - 0x80) = c.toNat / 0x1000 := by omega
        have hacc2 : c.toNat / 0x1000 * 0x40 + (0x80 + c.toNat / 0x40 % 0x40 - 0x80) =
            c.toNat / 0x40 := by omega
        have hcp : c.toNat / 0x40 * 0x40 + (0x80 + c.toNat % 0x40 - 0x80) = c.toNat := by
          omega
        have hS : (0x10000 : Nat) ≤ c.toNat ∧ (c.toNat < 0xD800 ∨ 0xDFFF < c.toNat) ∧
            c.toNat < 0x110000 := by omega
        simp only [utf8Run, if_neg hA, if_neg hB, if_neg hC, if_neg hD, if_pos hE,
          if_pos hF, if_pos hG, if_pos hH, hacc1, hacc2, hcp]
        simp [hS, hofn]

/-- UTF-8 decoding undoes the whole token encoding of a string. -/
theorem utf8Run_tokOf : ∀ (l : List Char) (ts : List (Sum Nat Char)),
    utf8Run none (l.flatMap tokOf ++ ts) =
      (utf8Run none ts).map (fun l2 => l ++ l2) := by
  intro l
  induction l with
  | nil =>
    intro ts
    cases h : utf8Run none ts <;> simp [h]
  | cons c cs ih =>
    intro ts
    rw [List.flatMap_cons, List.append_assoc]
    by_cases hc : unreservedURIChar c = true
    · rw [show tokOf c = [Sum.inr c] by simp [tokOf, hc]]
      simp only [List.cons_append, List.nil_append]
      rw [show utf8Run none (Sum.inr c :: (cs.flatMap tokOf ++ ts)) =
          (utf8Run none (cs.flatMap tokOf ++ ts)).map (fun l => c :: l) from rfl]
      rw [ih ts]
      cases utf8Run none ts <;> simp
    · rw [show tokOf c = (utf8Bytes c).map Sum.inl by simp [tokOf, hc]]
      rw [utf8Run_bytes c (cs.flatMap tokOf ++ ts), ih ts]
      cases utf8Run none ts <;> simp

/-- Tokenising the percent-encoding of a string yields its token encoding. -/
theorem pctTokens_encode : ∀ (l : List Char) (rest : List Char),
    pctTokens (l.flatMap encodeURIChar ++ rest) =
      (pctTokens rest).map (fun ts => l.flatMap tokOf ++ ts) := by
  intro l
  induction l with
  | nil =>
    intro rest
    cases h : pctTokens rest <;> simp [h]
  | cons c cs ih =>
    intro rest
    rw [List.flatMap_cons, List.append_assoc]
    by_cases hc : unreservedURIChar c = true
    · rw [show encodeURIChar c = [c] by simp [encodeURIChar, hc]]
      simp only [List.cons_append, List.nil_append]
      rw [pctTokens_lit c (unreserved_ne_pct c hc), ih rest,
        List.flatMap_cons, show tokOf c = [Sum.inr c] by simp [tokOf, hc]]
      cases pctTokens rest <;> simp
    · rw [show encodeURIChar c = (utf8Bytes c).flatMap pctEncodeByte by
        simp [encodeURIChar, hc]]
      rw [pctTokens_bytes (utf8Bytes c) (utf8Bytes_lt_256 c) _, ih rest,
        List.flatMap_cons, show tokOf c = (utf8Bytes c).map Sum.inl by simp [tokOf, hc]]
      cases pctTokens rest <;> simp

/-- Decoding the `data-md` attribute value recovers the exact Markdown
source: `decodeURIComponent` inverts `encodeURIComponent`. -/
theorem decodeURIComponent_encodeURIComponent (s : String) :
    decodeURIComponent (encodeURIComponent s) = some s := by
  obtain ⟨l⟩ := s
  have h1 : pctTokens (l.flatMap encodeURIChar) = some (l.flatMap tokOf) := by
    have h := pctTokens_encode l []
    rw [List.append_nil] at h
    rw [h]
    simp [pctTokens]
  have h2 : utf8DecodeTokens (l.flatMap tokOf) = some l := by
    have h := utf8Run_tokOf l []
    rw [List.append_nil] at h
    rw [utf8DecodeTokens, h]
    simp [utf8Run]
  simp [decodeURIComponent, encodeURIComponent, h1, h2]

/-- C6: in the rendered post markup, the title (and date) are HTML-escaped —
their markup contains no raw `<`, so no tag is interpreted, and
entity-decoding (the node's text content) gives back the literal input
string; the content is inserted as the rendered Markdown markup verbatim
(not escaped); the `data-md` attribute carries the URL-encoded Markdown
source; and decoding that attribute recovers the original content string
exactly. -/
theorem addPostToUI_escaping_spec (markedParse : String → String)
    (title content date id : String) (liked : Bool) (likes : Nat) :
    ((escapeHtml title).data.all (fun ch => ch != '<') = true ∧
     unescapeHtml (escapeHtml title) = title) ∧
    ((escapeHtml date).data.all (fun ch => ch != '<') = true ∧
     unescapeHtml (escapeHtml date) = date) ∧
    strIncludes (addPostToUI_innerHTML markedParse title content date id liked likes)
      (markedParse content) = true ∧
    strIncludes (addPostToUI_innerHTML markedParse title content date id liked likes)
      ("data-md=\"" ++ encodeURIComponent content ++ "\"") = true ∧
    decodeURIComponent (encodeURIComponent content) = some content := by
  refine ⟨⟨escapeHtml_no_tag title, unescapeHtml_escapeHtml title⟩,
    ⟨escapeHtml_no_tag date, unescapeHtml_escapeHtml date⟩, ?_, ?_,
    decodeURIComponent_encodeURIComponent content⟩
  · have hsplit : addPostToUI_innerHTML markedParse title content date id liked likes =
        ("\n      <h2>" ++ escapeHtml title ++ "</h2>\n      <p data-md=\"" ++
          encodeURIComponent content ++ "\">") ++ markedParse content ++
        ("</p>\n      <span class=\"date\">" ++ escapeHtml date ++ "</span>\n      " ++
          createLikeButton id liked likes ++ "\n    ") := by
      simp [addPostToUI_innerHTML, String.append_assoc]
    rw [hsplit]
    exact strIncludes_append _ _ _
  · have hsplit : addPostToUI_innerHTML markedParse title content date id liked likes =
        ("\n      <h2>" ++ escapeHtml title ++ "</h2>\n      <p ") ++
        ("data-md=\"" ++ encodeURIComponent content ++ "\"") ++
        (">" ++ markedParse content ++ "</p>\n      <span class=\"date\">" ++
          escapeHtml date ++ "</span>\n      " ++ createLikeButton id liked likes ++
          "\n    ") := by
      simp only [addPostToUI_innerHTML, String.append_assoc]
      rw [show ("</h2>\n      <p data-md=\"" : String) =
            "</h2>\n      <p " ++ "data-md=\"" by decide,
        show ("\">" : String) = "\"" ++ ">" by decide]
      simp only [String.append_assoc]
    rw [hsplit]
    exact strIncludes_append _ _ _

/-- The last event of a timeline of non-empty inputs has a non-empty value. -/
theorem eventsNonempty_getLastD : ∀ (l : List (Nat × String)) (x d : Nat × String),
    eventsNonempty (x :: l) = true → jsTrim ((x :: l).getLastD d).2 ≠ "" := by
  intro l
  induction l with
  | nil =>
    intro x d h
    rw [List.getLastD_cons, List.getLastD_nil]
    simpa [eventsNonempty] using h
  | cons y l2 ih =>
    intro x d h
    rw [List.getLastD_cons]
    apply ih y x
    simp only [eventsNonempty, List.all_cons, Bool.and_eq_true] at h ⊢
    exact h.2

/-- During a typing burst the pending debounce timer never fires: each event
arrives before the previous deadline and just reschedules, so after the
burst the timer carries the last event's value, and no save has run. -/
theorem runAutoSave_pending : ∀ (rest : List (Nat × String)) (tp : Nat) (vp : String)
    (sv : List (Nat × String)) (store : Option String),
    burstGaps ((tp, vp) :: rest) = true → eventsNonempty rest = true →
    runAutoSave rest ⟨some (tp + AUTO_SAVE_DELAY, vp), sv, store⟩ =
      ⟨some ((((tp, vp) :: rest).getLastD (0, "")).1 + AUTO_SAVE_DELAY,
             (((tp, vp) :: rest).getLastD (0, "")).2), sv, store⟩ := by
  intro rest
  induction rest with
  | nil =>
    intro tp vp sv store _ _
    simp [runAutoSave, List.getLastD]
  | cons e2 rest2 ih =>
    rcases e2 with ⟨t2, v2⟩
    intro tp vp sv store hg hn
    have hg1 : (tp < t2 ∧ t2 < tp + AUTO_SAVE_DELAY) ∧ burstGaps ((t2, v2) :: rest2) = true := by
      simpa [burstGaps, Bool.and_eq_true, decide_eq_true_eq] using hg
    have hn1 : jsTrim v2 ≠ "" ∧ eventsNonempty rest2 = true := by
      simpa [eventsNonempty, List.all_cons, Bool.and_eq_true] using hn
    simp only [runAutoSave, List.foldl_cons]
    have hstep : stepEvent ⟨some (tp + AUTO_SAVE_DELAY, vp), sv, store⟩ (t2, v2) =
        ⟨some (t2 + AUTO_SAVE_DELAY, v2), sv, store⟩ := by
      have hnofire : ¬ (tp + AUTO_SAVE_DELAY ≤ t2) := by
        have := hg1.1.2
        omega
      simp [stepEvent, fireIfDue, hnofire, handleInput, hn1.1]
    rw [hstep]
    simp only [runAutoSave] at ih
    rw [ih t2 v2 sv store hg1.2 hn1.2]
    simp [List.getLastD_cons]

/-- C8: after a typing burst on the content field (input events with
non-empty values, each arriving before the previous debounce deadline)
followed by quiescence of at least the debounce interval, exactly one save
runs — at the last event's time plus `AUTO_SAVE_DELAY`, storing exactly the
final typed text under the draft key; focusing the field afterwards while
it is empty restores that stored value; and a successful submission removes
both draft keys. -/
theorem autoSave_debounce_spec (t0 : Nat) (v0 : String) (rest : List (Nat × String))
    (d0 : Option String)
    (hgap : burstGaps ((t0, v0) :: rest) = true)
    (hne : eventsNonempty ((t0, v0) :: rest) = true) :
    (settleAutoSave (runAutoSave ((t0, v0) :: rest) ⟨none, [], d0⟩)).saves =
      [((((t0, v0) :: rest).getLastD (0, "")).1 + AUTO_SAVE_DELAY,
        (((t0, v0) :: rest).getLastD (0, "")).2)] ∧
    (settleAutoSave (runAutoSave ((t0, v0) :: rest) ⟨none, [], d0⟩)).draftStore =
      some ((((t0, v0) :: rest).getLastD (0, "")).2) ∧
    focusRestore
      (settleAutoSave (runAutoSave ((t0, v0) :: rest) ⟨none, [], d0⟩)).draftStore "" =
      (((t0, v0) :: rest).getLastD (0, "")).2 ∧
    (∀ (title content : String) (isOnline : Bool) (jitter : Nat → ℚ)
       (insertOk : Nat → Bool) (st : SubmitState) (dc dt : Option String),
       (runValue (submitPost title content isOnline jitter insertOk st).2).isSome = true →
       (wrappedSubmitPost title content isOnline jitter insertOk st dc dt).2 =
         (none, none)) := by
  have hne0 : jsTrim v0 ≠ "" ∧ eventsNonempty rest = true := by
    simpa [eventsNonempty, List.all_cons, Bool.and_eq_true] using hne
  have hrun : runAutoSave ((t0, v0) :: rest) ⟨none, [], d0⟩ =
      ⟨some ((((t0, v0) :: rest).getLastD (0, "")).1 + AUTO_SAVE_DELAY,
             (((t0, v0) :: rest).getLastD (0, "")).2), [], d0⟩ := by
    simp only [runAutoSave, List.foldl_cons]
    have hstep : stepEvent ⟨none, [], d0⟩ (t0, v0) =
        ⟨some (t0 + AUTO_SAVE_DELAY, v0), [], d0⟩ := by
      simp [stepEvent, fireIfDue, handleInput, hne0.1]
    rw [hstep]
    have h2 := runAutoSave_pending rest t0 v0 [] d0 hgap hne0.2
    simpa only [runAutoSave] using h2
  have hlast2 : (((t0, v0) :: rest).getLastD (0, "")).2 ≠ "" := by
    intro h
    exact eventsNonempty_getLastD rest (t0, v0) (0, "") hne (by rw [h]; rfl)
  refine ⟨?_, ?_, ?_, ?_⟩
  · rw [hrun]
    simp [settleAutoSave, fireTimer]
  · rw [hrun]
    simp [settleAutoSave, fireTimer]
  · rw [hrun]
    have hcond : ((((t0, v0) :: rest).getLastD (0, "")).2 != "" &&
        (jsTrim "" == "")) = true := by
      rw [Bool.and_eq_true]
      exact ⟨bne_iff_ne.mpr hlast2, by decide⟩
    simp only [settleAutoSave, fireTimer, focusRestore]
    rw [if_pos hcond]
  · intro title content isOnline jitter insertOk st dc dt hsome
    rcases hr : (submitPost title content isOnline jitter insertOk st).2 with e | res
    · rw [hr] at hsome
      simp [runValue] at hsome
    · rw [hr] at hsome
      simp only [runValue] at hsome
      simp [wrappedSubmitPost, hr, hsome]

/-- Witness for C8 at the burst (0ms, `a`), (100ms, `ab`) with no prior
draft, plus a concrete successful submission clearing both draft keys. -/
theorem autoSave_debounce_spec_witness :
    (settleAutoSave (runAutoSave [(0, "a"), (100, "ab")] ⟨none, [], none⟩)).saves =
      [(100 + AUTO_SAVE_DELAY, "ab")] ∧
    (settleAutoSave (runAutoSave [(0, "a"), (100, "ab")] ⟨none, [], none⟩)).draftStore =
      some "ab" ∧
    focusRestore
      (settleAutoSave (runAutoSave [(0, "a"), (100, "ab")] ⟨none, [], none⟩)).draftStore ""
      = "ab" ∧
    (wrappedSubmitPost "T" "C" true (fun _ => 0) (fun _ => true) ⟨0, []⟩
      (some "dc") (some "dt")).2 = (none, none) := by
  have h := autoSave_debounce_spec 0 "a" [(100, "ab")] none (by decide) (by decide)
  exact ⟨h.1, h.2.1, h.2.2.1,
    h.2.2.2 "T" "C" true (fun _ => 0) (fun _ => true) ⟨0, []⟩ (some "dc") (some "dt")
      (by decide)⟩

/-- C9: an input event whose value is empty or whitespace-only does not call
the debounced save at all — the handler leaves the state untouched, so it
schedules nothing, and the previously persisted draft value survives any
quiescence unchanged. -/
theorem autoSave_empty_input_spec (s : AutoSaveState) (now : Nat) (v : String)
    (hv : jsTrim v = "") :
    handleInput s now v = s ∧
    (s.pendingTimer = none →
      (settleAutoSave (stepEvent s (now, v))).draftStore = s.draftStore ∧
      (settleAutoSave (stepEvent s (now, v))).saves = s.saves) := by
  refine ⟨by simp [handleInput, hv], ?_⟩
  intro hp
  have h1 : stepEvent s (now, v) = s := by
    simp [stepEvent, fireIfDue, hp, handleInput, hv]
  rw [h1]
  simp [settleAutoSave, fireTimer, hp]

/-- Witness for C9: clearing the field (a whitespace-only input) after a
draft `draft` was stored leaves the stored draft unchanged. -/
theorem autoSave_empty_input_spec_witness :
    handleInput ⟨none, [], some "draft"⟩ 5 " " = ⟨none, [], some "draft"⟩ ∧
    (settleAutoSave (stepEvent ⟨none, [], some "draft"⟩ (5, " "))).draftStore =
      some "draft" := by
  have h := autoSave_empty_input_spec ⟨none, [], some "draft"⟩ 5 " " (by decide)
  exact ⟨h.1, (h.2 rfl).1⟩
